import Mathlib

/-!
Verification development for the agentic-finance-review pipeline:
statement parsers (delimited text, OFX/QBO markup), consistency
validators, the categorizer, the custom rule engine (categorize /
rename / split actions), and the IIF accounting exporter.

Numbers are modelled as rationals (`ℚ`); JavaScript strings as `String`;
`undefined`/`null`/string unions as a small `JSVal` type.  All
definitions are translated from the TypeScript source; source file and
function names are kept where Lean allows.
-/

namespace FinanceReview

/-! ## JavaScript numeric primitives -/

/-- The values a `string | number | null | undefined` parameter can take
in the fragments we embed.  The `number` branch of `parseNumeric` /
`parseAmount` only round-trips a number through `String(...)`, so the
embedding covers the string, `null` and `undefined` branches. -/
inductive JSVal where
  | vstr (s : String)
  | vnull
  | vundef
  deriving DecidableEq, Repr

/-- Characters JavaScript `parseFloat` skips as leading whitespace. -/
def jsSpace (c : Char) : Bool :=
  c = ' ' ∨ c = '\t' ∨ c = '\n' ∨ c = '\r'

/-- Decimal value of a digit list (most significant first). -/
def digitsVal (l : List Char) : ℕ :=
  l.foldl (fun acc c => acc * 10 + (c.toNat - 48)) 0

/-- Exponent part of a JS float literal (after the `e`/`E`): optional
sign then digits; a malformed exponent contributes factor `10 ^ 0`. -/
def parseExpPart (r : List Char) : ℤ :=
  let p : ℤ × List Char :=
    match r with
    | '-' :: t => (-1, t)
    | '+' :: t => (1, t)
    | _ => (1, r)
  let ds := p.2.takeWhile Char.isDigit
  if ds.isEmpty then 0 else p.1 * (digitsVal ds : ℤ)

/-- Core of JS `parseFloat` on a whitespace-stripped character list:
optional sign, integer digits, optional `.` and fraction digits
(at least one digit required overall), optional exponent.  `none`
models `NaN`. -/
def jsParseFloatCore (cs : List Char) : Option ℚ :=
  let sp : ℚ × List Char :=
    match cs with
    | '-' :: rest => (-1, rest)
    | '+' :: rest => (1, rest)
    | _ => (1, cs)
  let intPart := sp.2.takeWhile Char.isDigit
  let rest1 := sp.2.dropWhile Char.isDigit
  let fp : List Char × List Char :=
    match rest1 with
    | '.' :: r => (r.takeWhile Char.isDigit, r.dropWhile Char.isDigit)
    | _ => ([], rest1)
  if intPart.isEmpty ∧ fp.1.isEmpty then none
  else
    let mant : ℚ := (digitsVal intPart : ℚ) + (digitsVal fp.1 : ℚ) / ((10 : ℚ) ^ fp.1.length)
    let e : ℤ :=
      match fp.2 with
      | 'e' :: r => parseExpPart r
      | 'E' :: r => parseExpPart r
      | _ => 0
    some (sp.1 * mant * (10 : ℚ) ^ e)

/-- JS `parseFloat : string -> number`; `none` models `NaN`. -/
def jsParseFloat (s : String) : Option ℚ :=
  jsParseFloatCore (s.data.dropWhile jsSpace)

/-- JS `Math.round(x * 100) / 100` (round half towards `+∞`, which is
what `Math.round` does and what Mathlib's `round` computes on `ℚ`). -/
def round2 (q : ℚ) : ℚ :=
  (round (q * 100) : ℚ) / 100

/-- Two-digit rendering of a number below 100 (`padStart`-style). -/
def pad2 (n : ℕ) : String :=
  if n < 10 then "0" ++ toString n else toString n

/-- JS `Number.prototype.toFixed(2)` for amounts whose double value
rounds cleanly to cents (all amounts serialized by this code base). -/
def toFixed2 (q : ℚ) : String :=
  let n : ℤ := round (q * 100)
  let a := n.natAbs
  (if n < 0 then "-" else "") ++ toString (a / 100) ++ "." ++ pad2 (a % 100)

/-- The character class `[$,()]` removed by `parseNumeric`/`parseAmount`. -/
def isCurrencyChar (c : Char) : Bool :=
  c = '$' ∨ c = ',' ∨ c = '(' ∨ c = ')'

/-- `String(val).replace(/[$,()]/g, '')`. -/
def stripCurrency (s : String) : String :=
  String.mk (s.data.filter (fun c => !isCurrencyChar c))

/-! ## `parseNumeric` (csv-validators) and `parseAmount` (csv-processor) -/

/-- `parseNumeric` from the CSV validators: null/undefined/empty map to
0; currency characters are stripped; a failed parse maps to 0. -/
def parseNumeric : JSVal → ℚ
  | .vnull => 0
  | .vundef => 0
  | .vstr s =>
    if s = "" then 0
    else (jsParseFloat (stripCurrency s)).getD 0

/-- `parseAmount` from the CSV processor: like `parseNumeric` but takes
the absolute value of a successful parse. -/
def parseAmount : JSVal → ℚ
  | .vnull => 0
  | .vundef => 0
  | .vstr s =>
    if s = "" then 0
    else
      match jsParseFloat (stripCurrency s) with
      | none => 0
      | some q => |q|

/-- Lift `row[col]`-style optional lookups into `JSVal`. -/
def jsValOf : Option String → JSVal
  | none => .vundef
  | some s => .vstr s

/-! ## String primitives

Structural character-list implementations of the JS string methods the
source uses (`toLowerCase`, `trim`, `includes`, `startsWith`,
`split`). -/

/-- `toLowerCase` on one character (ASCII folding; every pattern and
header in the source tables is ASCII). -/
def lowerChar (c : Char) : Char :=
  if 'A' ≤ c ∧ c ≤ 'Z' then Char.ofNat (c.toNat + 32) else c

/-- `s.toLowerCase()`. -/
def strToLower (s : String) : String :=
  String.mk (s.data.map lowerChar)

/-- `s.trim()`. -/
def strTrim (s : String) : String :=
  String.mk (((s.data.dropWhile jsSpace).reverse.dropWhile jsSpace).reverse)

/-- `s.startsWith(pre)`. -/
def strStartsWith (s pre : String) : Bool :=
  List.isPrefixOf pre.data s.data

/-- `s.includes(c)` for a single character. -/
def strContainsChar (s : String) (c : Char) : Bool :=
  s.data.contains c

/-- If `pat` is a prefix of `s`, the remaining suffix. -/
def prefixRest : List Char → List Char → Option (List Char)
  | [], s => some s
  | _ :: _, [] => none
  | p :: ps, c :: cs => if p = c then prefixRest ps cs else none

/-- Substring occurrence on character lists. -/
def csContains (pat : List Char) : List Char → Bool
  | [] => pat.isEmpty
  | l@(_ :: rest) => (prefixRest pat l).isSome || csContains pat rest

/-- `s.includes(pat)`. -/
def containsStr (s pat : String) : Bool :=
  csContains pat.data s.data

/-- `s.split(sep)` for a one-character separator. -/
def splitOnChar (sep : Char) : List Char → List (List Char)
  | [] => [[]]
  | c :: rest =>
    if c = sep then [] :: splitOnChar sep rest
    else
      match splitOnChar sep rest with
      | [] => [[c]]
      | l :: ls => (c :: l) :: ls

def strSplitOnChar (sep : Char) (s : String) : List String :=
  (splitOnChar sep s.data).map String.mk

/-- `String.toNat?` (used to model chronological comparison of ISO
dates). -/
def strToNatQ (s : String) : Option ℕ :=
  if s.data ≠ [] ∧ s.data.all Char.isDigit then some (digitsVal s.data) else none

/-! ## Canonical transaction model -/

inductive TxnType where
  | income
  | expense
  deriving DecidableEq, Repr

structure Transaction where
  date : String
  description : String
  amount : ℚ
  type : TxnType
  category : String
  balance : ℚ
  account : String
  deriving DecidableEq, Repr

/-- Placeholder used for out-of-range list reads in statements. -/
def dummyTxn : Transaction :=
  { date := "", description := "", amount := 0, type := .expense,
    category := "", balance := 0, account := "" }

instance : Inhabited Transaction := ⟨dummyTxn⟩

/-! ## CSV rows and column resolution -/

/-- A parsed CSV row: an association of header name to cell text. -/
def Row := List (String × String)

/-- `row[col]` on a parsed row (`none` models `undefined`). -/
def rowGet (r : Row) (k : String) : Option String :=
  (List.lookup k r)

/-- The delimited-text parser's synonym table (`COLUMN_MAPPINGS`),
field by field. -/
def COLUMN_MAPPINGS_date : List String :=
  ["date", "trans date", "transaction date", "posted date", "posting date"]

def COLUMN_MAPPINGS_description : List String :=
  ["description", "memo", "details", "transaction description", "payee"]

def COLUMN_MAPPINGS_amount : List String :=
  ["amount", "transaction amount"]

def COLUMN_MAPPINGS_withdrawal : List String :=
  ["withdrawal", "withdrawals", "debit", "debits", "amount debit"]

def COLUMN_MAPPINGS_deposit : List String :=
  ["deposit", "deposits", "credit", "credits", "amount credit"]

def COLUMN_MAPPINGS_balance : List String :=
  ["balance", "running balance", "available balance"]

def COLUMN_MAPPINGS_category : List String :=
  ["category", "type", "transaction type"]

/-- Key-indexed view of `COLUMN_MAPPINGS` (the object's seven fields). -/
def columnMappings (k : String) : List String :=
  if k = "date" then COLUMN_MAPPINGS_date
  else if k = "description" then COLUMN_MAPPINGS_description
  else if k = "amount" then COLUMN_MAPPINGS_amount
  else if k = "withdrawal" then COLUMN_MAPPINGS_withdrawal
  else if k = "deposit" then COLUMN_MAPPINGS_deposit
  else if k = "balance" then COLUMN_MAPPINGS_balance
  else if k = "category" then COLUMN_MAPPINGS_category
  else []

/-- `findColumn` from the CSV processor: first synonym with a
case‑insensitive (trimmed) match wins; returns the original header. -/
def findColumn (headers : List String) (mappings : List String) : Option String :=
  let lowerHeaders := headers.map (fun h => strTrim (strToLower h))
  mappings.findSome? (fun m =>
    match lowerHeaders.findIdx? (fun h => h = m) with
    | some i => headers[i]?
    | none => none)

/-! ## CSV validators (`csv-validators`) -/

structure ValidationError where
  file : String
  row : Option ℕ
  date : Option String
  message : String
  expected : Option ℚ
  actual : Option ℚ
  deriving DecidableEq, Repr

/-- `getColumnVariations` from the CSV validators — note this table is
NOT identical to the parser's `COLUMN_MAPPINGS`. -/
def getColumnVariations (col : String) : List String :=
  if col = "date" then ["date", "trans date", "transaction date", "posted date"]
  else if col = "description" then ["description", "memo", "details", "payee"]
  else if col = "deposit" then ["deposit", "deposits", "credit", "credits", "amount credit"]
  else if col = "withdrawal" then ["withdrawal", "withdrawals", "debit", "debits", "amount debit"]
  else if col = "balance" then ["balance", "running balance", "available balance"]
  else if col = "category" then ["category", "type", "transaction type"]
  else [col]

/-- The single error object `validateRequiredColumns` produces. -/
def missingColumnsError (filename : String) (missing : List String) : ValidationError :=
  { file := filename, row := none, date := none,
    message := "Missing required columns: " ++ String.intercalate ", " missing,
    expected := none, actual := none }

/-- `validateRequiredColumns`: report the required canonical columns
with no case-insensitive match among the headers (via
`getColumnVariations`). -/
def validateRequiredColumns (headers : List String) (filename : String)
    (required : List String) : List ValidationError :=
  let lowerHeaders := headers.map strToLower
  let missing := required.filter (fun col =>
    !((getColumnVariations col).any (fun v => lowerHeaders.contains v)))
  if missing.isEmpty then [] else [missingColumnsError filename missing]

/-! ## Balance-consistency validator -/

structure BalanceColumns where
  deposit : String
  withdrawal : String
  balance : String
  date : String
  deriving DecidableEq, Repr

/-- Expected balance for row `i` given the parsed deposit/withdrawal/
balance arrays: `balances[i+1] - withdrawals[i] + deposits[i]`. -/
def vbcExpected (deposits withdrawals balances : List ℚ) (i : ℕ) : ℚ :=
  balances.getD (i + 1) 0 - withdrawals.getD i 0 + deposits.getD i 0

/-- Whether row `i` violates the balance progression by more than 0.01. -/
def vbcViolates (deposits withdrawals balances : List ℚ) (i : ℕ) : Bool :=
  1/100 < |vbcExpected deposits withdrawals balances i - balances.getD i 0|

/-- The per-row error object `validateBalanceConsistency` pushes. -/
def vbcError (filename : String) (deposits withdrawals balances : List ℚ)
    (dates : List String) (i : ℕ) : ValidationError :=
  let e := vbcExpected deposits withdrawals balances i
  let a := balances.getD i 0
  { file := filename, row := some (i + 2), date := some (dates.getD i "unknown"),
    message := "Balance mismatch! Expected $" ++ toFixed2 e ++ ", got $" ++ toFixed2 a,
    expected := some e, actual := some a }

/-- The `for (let i = rows.length - 2; i >= 0; i--)` loop of
`validateBalanceConsistency`: threads the violation count and emits an
error object only for the first five violations. -/
def vbcLoop (filename : String) (deposits withdrawals balances : List ℚ)
    (dates : List String) (c : ℕ) : List ℕ → ℕ × List ValidationError
  | [] => (c, [])
  | i :: rest =>
    if vbcViolates deposits withdrawals balances i then
      let c1 := c + 1
      let r := vbcLoop filename deposits withdrawals balances dates c1 rest
      (r.1, (if c1 ≤ 5 then [vbcError filename deposits withdrawals balances dates i] else []) ++ r.2)
    else
      vbcLoop filename deposits withdrawals balances dates c rest

/-- The trailing summary error when more than five rows violate. -/
def vbcSummaryError (filename : String) (excess : ℕ) : ValidationError :=
  { file := filename, row := none, date := none,
    message := "... and " ++ toString excess ++ " more balance errors",
    expected := none, actual := none }

/-- `validateBalanceConsistency` from the CSV validators.  Rows are
ordered newest-first; values are parsed with `parseNumeric`; fewer than
two rows validate vacuously. -/
def validateBalanceConsistency (rows : List Row) (filename : String)
    (columns : BalanceColumns) : List ValidationError :=
  if rows.length < 2 then []
  else
    let deposits := rows.map (fun r => parseNumeric (jsValOf (rowGet r columns.deposit)))
    let withdrawals := rows.map (fun r => parseNumeric (jsValOf (rowGet r columns.withdrawal)))
    let balances := rows.map (fun r => parseNumeric (jsValOf (rowGet r columns.balance)))
    let dates := rows.map (fun r =>
      match rowGet r columns.date with
      | some d => if d = "" then "unknown" else d
      | none => "unknown")
    let r := vbcLoop filename deposits withdrawals balances dates 0
      ((List.range (rows.length - 1)).reverse)
    r.2 ++ (if 5 < r.1 then [vbcSummaryError filename (r.1 - 5)] else [])

/-! ## Delimited-text (CSV) parser (`csv-processor`) -/

structure ParsedCSV where
  transactions : List Transaction
  account : String
  startBalance : ℚ
  endBalance : ℚ
  deriving DecidableEq, Repr

/-- `inferAccountFromFilename`. -/
def inferAccountFromFilename (filename : String) : String :=
  let lower := strToLower filename
  if containsStr lower "check" ∨ containsStr lower "chk" then "Checking"
  else if containsStr lower "saving" ∨ containsStr lower "sav" then "Savings"
  else if containsStr lower "credit" ∨ containsStr lower "cc" then "Credit Card"
  else "Account"

/-- Chronological key used for the `new Date(...).getTime()` sort
comparators.  Modelled for ISO `YYYY-MM-DD` date strings (the only
shape the embedded pipeline produces); only its order matters. -/
def dateKey (s : String) : ℤ :=
  match (strSplitOnChar '-' s).map strToNatQ with
  | [some y, some m, some d] => (y * 10000 + m * 100 + d : ℤ)
  | _ => 0

/-- The resolved columns the CSV row loop works with. -/
structure ResolvedColumns where
  dateCol : Option String
  descCol : Option String
  amountCol : Option String
  withdrawalCol : Option String
  depositCol : Option String
  balanceCol : Option String
  categoryCol : Option String

/-- `findColumn` applied to each entry of `COLUMN_MAPPINGS`. -/
def resolveColumns (headers : List String) : ResolvedColumns :=
  { dateCol := findColumn headers COLUMN_MAPPINGS_date
    descCol := findColumn headers COLUMN_MAPPINGS_description
    amountCol := findColumn headers COLUMN_MAPPINGS_amount
    withdrawalCol := findColumn headers COLUMN_MAPPINGS_withdrawal
    depositCol := findColumn headers COLUMN_MAPPINGS_deposit
    balanceCol := findColumn headers COLUMN_MAPPINGS_balance
    categoryCol := findColumn headers COLUMN_MAPPINGS_category }

/-- Type/amount determination for one CSV row (the `if (amountCol)`
block): a signed amount column classifies by `-`/`(` in the raw text,
otherwise separate withdrawal/deposit columns decide. -/
def rowTypeAmount (cols : ResolvedColumns) (r : Row) : TxnType × ℚ :=
  match cols.amountCol with
  | some ac =>
    let rawAmount := parseAmount (jsValOf (rowGet r ac))
    let rawStr := (rowGet r ac).getD ""
    if strContainsChar rawStr '-' ∨ strContainsChar rawStr '(' then (.expense, rawAmount)
    else (.income, rawAmount)
  | none =>
    let withdrawal := match cols.withdrawalCol with
      | some c => parseAmount (jsValOf (rowGet r c))
      | none => 0
    let deposit := match cols.depositCol with
      | some c => parseAmount (jsValOf (rowGet r c))
      | none => 0
    if withdrawal > 0 then (.expense, withdrawal)
    else if deposit > 0 then (.income, deposit)
    else (.expense, 0)

/-- The `for (const row of rows)` body of `parseCSV`: rows without a
date or with a zero resultant amount are dropped. -/
def parseCSVRows (cols : ResolvedColumns) (account : String) : List Row → List Transaction
  | [] => []
  | r :: rest =>
    let dateStr := match cols.dateCol with
      | some c => (rowGet r c).getD ""
      | none => ""
    if dateStr = "" then parseCSVRows cols account rest
    else
      let ta := rowTypeAmount cols r
      if ta.2 = 0 then parseCSVRows cols account rest
      else
        let description := match cols.descCol with
          | some c =>
            let d := strTrim ((rowGet r c).getD "")
            if d = "" then "Unknown" else d
          | none => "Unknown"
        let balance := match cols.balanceCol with
          | some c => parseAmount (jsValOf (rowGet r c))
          | none => 0
        let category := match cols.categoryCol with
          | some c => strTrim ((rowGet r c).getD "")
          | none => ""
        { date := dateStr, description := description, amount := ta.2,
          type := ta.1, category := category, balance := balance,
          account := account } :: parseCSVRows cols account rest

/-- `parseCSV` (post-PapaParse): resolve columns, build transactions,
sort date-descending, read start/end balances off the oldest/newest
rows. -/
def parseCSV (headers : List String) (rows : List Row) (filename : String) : ParsedCSV :=
  let cols := resolveColumns headers
  let account := inferAccountFromFilename filename
  let transactions :=
    (parseCSVRows cols account rows).mergeSort
      (fun a b => decide (dateKey b.date ≤ dateKey a.date))
  let startBalance := match transactions.getLast? with
    | some t => t.balance
    | none => 0
  let endBalance := match transactions.head? with
    | some t => t.balance
    | none => 0
  { transactions := transactions, account := account,
    startBalance := startBalance, endBalance := endBalance }

/-! ## QBO/OFX parser (`qbo-parser`) -/

/-- `parseOFXDate`: 8-digit date, optional bracketed timezone stripped,
reformatted `YYYY-MM-DD`. -/
def parseOFXDate (dateStr : String) : String :=
  if dateStr = "" then ""
  else
    let cleanDate := (strSplitOnChar '[' dateStr).headD ""
    cleanDate.take 4 ++ "-" ++ ((cleanDate.drop 4).take 2) ++ "-" ++ ((cleanDate.drop 6).take 2)

/-- The tag values `parseQBO` extracts from one `STMTTRN` block
(`extractTag` results; `""` models an absent tag, as `extractTag`
returns `''` when nothing matches). -/
structure QBOFields where
  trnType : String
  dtPosted : String
  trnAmt : String
  name : String
  memo : String
  fitId : String
  checkNum : String
  deriving DecidableEq, Repr

/-- The transaction (plus its signed amount) `parseQBO` builds from one
block: amount sign decides income/expense, magnitude is stored, and the
description composes name/memo/check number. -/
def mkQBOTxn (accountType : String) (f : QBOFields) : Transaction × ℚ :=
  let amount := (jsParseFloat f.trnAmt).getD 0
  let absAmount := |amount|
  let isIncome := amount > 0
  let description :=
    if f.memo ≠ "" then f.name ++ " - " ++ f.memo
    else if f.checkNum ≠ "" then f.name ++ " #" ++ f.checkNum
    else f.name
  ({ date := parseOFXDate f.dtPosted, description := description,
     amount := absAmount, type := if isIncome then .income else .expense,
     category := "Uncategorized", balance := 0, account := accountType },
   amount)

/-- The running-balance loop of `parseQBO` (lines 455-461): record the
current running value as each transaction's balance, then subtract its
signed amount; the final running value is the synthesized start
balance. -/
def reconstructBalances (balance : ℚ) : List (Transaction × ℚ) → List Transaction × ℚ
  | [] => ([], balance)
  | (t, amount) :: rest =>
    let r := reconstructBalances (balance - amount) rest
    ({ t with balance := balance } :: r.1, r.2)

structure QBOResult where
  transactions : List Transaction
  account : String
  startBalance : ℚ
  endBalance : ℚ
  deriving DecidableEq, Repr

/-- The transaction-level core of `parseQBO`: build a transaction per
`STMTTRN` block, sort date-descending, reconstruct balances backwards
from the ending ledger balance.  (Tag extraction from raw markup is
outside this embedding; the block fields arrive pre-extracted.) -/
def parseQBO (accountType : String) (endBalance : ℚ) (blocks : List QBOFields) : QBOResult :=
  let parsedTxns := blocks.map (mkQBOTxn accountType)
  let sorted := parsedTxns.mergeSort
    (fun a b => decide (dateKey b.1.date ≤ dateKey a.1.date))
  let r := reconstructBalances endBalance sorted
  { transactions := r.1, account := accountType,
    startBalance := r.2, endBalance := endBalance }

/-! ## Categorizer (`categorizer.ts`)

Each source regex (all case-insensitive, tested against the lower-cased
description) is embedded as an executable matcher on the lower-cased
string: plain patterns as substring tests, alternations/optional pieces
expanded, `\b` and lookaheads via dedicated scanners. -/

/-- Substring pattern (`/pat/i` with no regex operators). -/
def psub (pat : String) : String → Bool :=
  fun s => containsStr s pat

/-- `/a.*b/i` scanner: some occurrence of `a` followed, later, by `b`. -/
def seqScan (a b : List Char) : List Char → Bool
  | [] => false
  | l@(_ :: rest) =>
    (match prefixRest a l with
     | some r => csContains b r
     | none => false) || seqScan a b rest

/-- `/a.*b/i`. -/
def seqSub (a b : String) (s : String) : Bool :=
  seqScan a.data b.data s.data

/-- JS `\w`. -/
def isWordChar (c : Char) : Bool :=
  c.isAlphanum ∨ c = '_'

/-- `/pat\b/i`: an occurrence of `pat` whose next character is not a
word character (or is the end of the string). -/
def subWordEndAux (pat : List Char) : List Char → Bool
  | [] => false
  | l@(_ :: rest) =>
    (match prefixRest pat l with
     | some [] => true
     | some (c :: _) => !isWordChar c
     | none => false) || subWordEndAux pat rest

def subWordEnd (pat s : String) : Bool :=
  subWordEndAux pat.data s.data

/-- `/uber(?! ?eats)/i`: an occurrence of `uber` not followed by
`eats` or ` eats`. -/
def uberNoEatsAux : List Char → Bool
  | [] => false
  | l@(_ :: rest) =>
    (match prefixRest "uber".data l with
     | some r => !(List.isPrefixOf "eats".data r || List.isPrefixOf " eats".data r)
     | none => false) || uberNoEatsAux rest

def uberNoEats (s : String) : Bool :=
  uberNoEatsAux s.data

/-- `/amazon(?!.*prime)/i`: an occurrence of `amazon` with no later
occurrence of `prime`. -/
def amazonNoPrimeAux : List Char → Bool
  | [] => false
  | l@(_ :: rest) =>
    (match prefixRest "amazon".data l with
     | some r => !containsStr (String.mk r) "prime"
     | none => false) || amazonNoPrimeAux rest

def amazonNoPrime (s : String) : Bool :=
  amazonNoPrimeAux s.data

/-- An ASCII apostrophe, for patterns quoting one. -/
def apos : String := String.mk [Char.ofNat 39]

structure CategoryRule where
  patterns : List (String → Bool)
  category : String

/-- `CATEGORY_RULES`: the ordered categorizer rule table (the first
five rules are the income rules). -/
def CATEGORY_RULES : List CategoryRule := [
  { patterns := [psub "payroll", psub "salary", psub "direct deposit", psub "employer"],
    category := "Salary" },
  { patterns := [psub "bonus", psub "incentive"], category := "Bonus" },
  { patterns := [fun s => psub "interest payment" s || psub "interest earned" s ||
        psub "interest credit" s, psub "apy"],
    category := "Interest" },
  { patterns := [psub "dividend"], category := "Dividends" },
  { patterns := [psub "refund", psub "rebate", psub "cashback"], category := "Refunds" },
  { patterns := [psub "trader joe", psub "whole foods", psub "safeway", psub "kroger",
      psub "publix", psub "albertsons", psub "food coop", psub "grocery", psub "costco",
      fun s => psub ("sam" ++ apos ++ "s club") s || psub "sams club" s,
      psub "aldi", psub "wegmans",
      fun s => psub "h-e-b" s || psub "h-eb" s || psub "he-b" s || psub "heb" s,
      seqSub "target" "grocery", seqSub "walmart" "grocery",
      psub "sprouts", psub "fresh market", psub "food mart", psub "supermarket"],
    category := "Groceries" },
  { patterns := [psub "restaurant", psub "doordash",
      fun s => psub "uber eats" s || psub "ubereats" s,
      psub "grubhub", psub "postmates", psub "chipotle", psub "mcdonald", psub "starbucks",
      psub "dunkin", psub "subway", psub "pizza", psub "burger", psub "cafe", psub "coffee",
      psub "diner", psub "grill", psub "sweetgreen",
      fun s => psub "chick-fil-a" s || psub "chick-fila" s || psub "chickfil-a" s ||
        psub "chickfila" s,
      psub "panera", psub "wendy", psub "taco bell", psub "kfc", psub "popeyes",
      psub "five guys", psub "shake shack", psub "panda express"],
    category := "Restaurants & Dining" },
  { patterns := [psub "netflix", psub "spotify", psub "hulu", psub "disney+",
      fun s => psub "hbo max" s || psub "hbomax" s,
      fun s => psub "apple music" s || psub "applemusic" s || psub "apple tv" s ||
        psub "appletv" s || psub "apple one" s || psub "appleone" s ||
        psub "apple arcade" s || psub "applearcade" s,
      psub "amazon prime", psub "youtube", psub "paramount", psub "peacock", psub "audible",
      psub "kindle", psub "nytimes", psub "subscription", psub "membership",
      psub "monthly fee"],
    category := "Subscriptions" },
  { patterns := [psub "openai", psub "anthropic", psub "claude", psub "chatgpt",
      psub "cursor", psub "github", psub "gitlab", psub "aws", psub "azure",
      psub "google cloud", psub "digitalocean", psub "heroku", psub "vercel",
      psub "netlify", psub "cloudflare", psub "notion", psub "figma", psub "canva",
      psub "adobe", psub "microsoft 365", psub "dropbox", psub "slack", psub "zoom",
      psub "calendly", psub "zapier", psub "replicate", psub "elevenlabs",
      psub "midjourney", psub "runway", psub "tradingview", psub "webflow",
      psub "airtable", psub "hubspot"],
    category := "Software & Services" },
  { patterns := [psub "electric", psub "gas co",
      fun s => psub "water bill" s || psub "water utility" s,
      psub "sewage", fun s => psub "con ed" s || psub "coned" s,
      psub "pge", psub "duke energy", psub "xcel", psub "utility", psub "power company",
      psub "national grid"],
    category := "Utilities" },
  { patterns := [psub "comcast", psub "xfinity", psub "spectrum", psub "verizon fios",
      seqSub "att" "internet",
      fun s => seqSub "t-mobile" "home" s || seqSub "tmobile" "home" s,
      psub "cox", psub "frontier", psub "optimum", psub "cable", psub "internet service",
      psub "broadband"],
    category := "Internet & Cable" },
  { patterns := [psub "verizon wireless", fun s => psub "t-mobile" s || psub "tmobile" s,
      seqSub "att" "wireless", psub "sprint", psub "at&t", psub "cricket",
      fun s => psub "metro pcs" s || psub "metropcs" s,
      psub "mint mobile", psub "visible", psub "google fi", psub "phone bill", psub "cell"],
    category := "Phone" },
  { patterns := [psub "insurance", psub "geico", psub "progressive", psub "state farm",
      psub "allstate", psub "liberty mutual", psub "nationwide", psub "usaa", psub "aetna",
      psub "cigna", psub "blue cross", psub "united health", psub "kaiser", psub "anthem"],
    category := "Insurance" },
  { patterns := [uberNoEats, psub "lyft", psub "taxi", subWordEnd "cab", psub "mta",
      psub "metro", psub "transit", psub "subway", psub "bus pass", psub "parking",
      psub "garage", psub "toll", fun s => psub "e-zpass" s || psub "ezpass" s],
    category := "Transportation" },
  { patterns := [psub "shell", psub "chevron", psub "exxon", psub "mobil", subWordEnd "bp",
      psub "arco", subWordEnd "76", psub "texaco", psub "gas station", psub "fuel",
      psub "petroleum", psub "speedway", seqSub "wawa" "gas", seqSub "costco" "gas"],
    category := "Gas" },
  { patterns := [amazonNoPrime, psub "walmart", psub "target", psub "best buy",
      psub "home depot", psub "lowes", psub "ikea", psub "wayfair", psub "bed bath",
      psub "macy", psub "nordstrom", fun s => psub "tj maxx" s || psub "tjmaxx" s,
      psub "marshalls", psub "ross", psub "kohls",
      fun s => psub "jc penney" s || psub "jcpenney" s,
      psub "gap", psub "old navy", psub "h&m", psub "zara", psub "uniqlo", psub "nike",
      psub "adidas", psub "apple store", psub "etsy", psub "ebay"],
    category := "Shopping" },
  { patterns := [psub "pharmacy", psub "cvs", psub "walgreens", psub "rite aid",
      psub "hospital", psub "clinic", psub "medical", psub "doctor", psub "dentist",
      psub "optom", psub "urgent care", psub "quest diag", psub "labcorp",
      psub "prescription"],
    category := "Health & Medical" },
  { patterns := [psub "gym", psub "fitness", psub "planet fitness", psub "equinox",
      psub "crunch", psub "24 hour fitness", psub "la fitness", psub "orangetheory",
      psub "crossfit", psub "peloton", psub "yoga", psub "pilates"],
    category := "Fitness" },
  { patterns := [psub "movie", psub "cinema", psub "amc", psub "regal", psub "theater",
      psub "theatre", psub "concert", psub "ticketmaster", psub "stubhub",
      psub "eventbrite", psub "museum", psub "zoo", psub "amusement", psub "bowling",
      psub "arcade", psub "steam", psub "playstation", psub "xbox", psub "nintendo",
      psub "gaming"],
    category := "Entertainment" },
  { patterns := [psub "airline", psub "united", psub "delta", psub "american air",
      psub "southwest", psub "jetblue", psub "spirit", psub "frontier", psub "alaska air",
      psub "flight", psub "hotel", psub "marriott", psub "hilton", psub "hyatt",
      psub "airbnb", psub "vrbo", psub "expedia", psub "booking.com", psub "kayak",
      psub "hopper", psub "priceline"],
    category := "Travel" },
  { patterns := [psub "student loan", seqSub "dept" "education", psub "fedloan",
      psub "nelnet", psub "navient", psub "mortgage", psub "car payment",
      psub "auto loan", psub "personal loan", psub "sofi", psub "lending club",
      psub "credit card payment"],
    category := "Loans" },
  { patterns := [psub "rent", psub "landlord", psub "property management",
      psub "apartment"],
    category := "Rent" },
  { patterns := [psub "transfer", psub "venmo", psub "zelle", psub "paypal",
      fun s => psub "cash app" s || psub "cashapp" s,
      psub "wire", seqSub "ach" "transfer"],
    category := "Transfers" },
  { patterns := [psub "atm", psub "cash withdrawal", psub "cash advance"],
    category := "ATM/Cash" },
  { patterns := [psub "fee", psub "charge", psub "overdraft", psub "nsf",
      psub "service charge", psub "monthly maintenance", psub "atm fee",
      psub "foreign transaction"],
    category := "Fees" }]

/-- The inner `for (const pattern of rule.patterns)` loop. -/
def patLoop (desc : String) : List (String → Bool) → Bool
  | [] => false
  | p :: rest => if p desc then true else patLoop desc rest

/-- The outer `for (const rule of ...)` loop with early return. -/
def ruleLoop (desc : String) : List CategoryRule → Option String
  | [] => none
  | r :: rest => if patLoop desc r.patterns then some r.category else ruleLoop desc rest

/-- `categorizeTransaction`: keep an already-set category other than
the `Uncategorized` sentinel; otherwise income transactions consult the
first five rules, expense transactions the whole table. -/
def categorizeTransaction (t : Transaction) : String :=
  if t.category ≠ "" ∧ t.category ≠ "Uncategorized" then t.category
  else
    let description := strToLower t.description
    match t.type with
    | .income => (ruleLoop description (CATEGORY_RULES.take 5)).getD "Other Income"
    | .expense => (ruleLoop description CATEGORY_RULES).getD "Other"

/-- `categorizeAllTransactions`. -/
def categorizeAllTransactions (transactions : List Transaction) : List Transaction :=
  transactions.map (fun t => { t with category := categorizeTransaction t })

/-! ## Custom rule engine (`custom-rules.ts`) -/

inductive RuleMatchType where
  | contains
  | startsWith
  | endsWith
  | regex
  | exact
  deriving DecidableEq, Repr

inductive RuleActionType where
  | categorize
  | rename
  | split
  deriving DecidableEq, Repr

inductive RuleField where
  | description
  | amount
  | category
  deriving DecidableEq, Repr

structure RuleCondition where
  field : RuleField
  matchType : RuleMatchType
  value : String
  minAmount : Option ℚ
  maxAmount : Option ℚ
  deriving DecidableEq, Repr

structure SplitAllocation where
  category : String
  percentage : Option ℚ
  fixedAmount : Option ℚ
  memo : Option String
  deriving DecidableEq, Repr

structure RuleAction where
  type : RuleActionType
  category : Option String
  newName : Option String
  splits : Option (List SplitAllocation)
  deriving DecidableEq, Repr

inductive ConditionLogic where
  | and
  | or
  deriving DecidableEq, Repr

structure CustomRule where
  id : String
  name : String
  enabled : Bool
  priority : ℤ
  conditions : List RuleCondition
  conditionLogic : ConditionLogic
  action : RuleAction
  deriving DecidableEq, Repr

/-- A transaction possibly tagged as a split fragment
(`SplitTransaction extends Transaction`; absent optional fields are
`none`). -/
structure SplitTransaction extends Transaction where
  isSplit : Bool
  splitParentId : Option String
  splitIndex : Option ℕ
  originalAmount : Option ℚ
  splitMemo : Option String
  deriving DecidableEq, Repr

/-- `{...transaction, isSplit: false}`: the unmodified pass-through
fragment. -/
def plainFragment (t : Transaction) : SplitTransaction :=
  { toTransaction := t, isSplit := false, splitParentId := none,
    splitIndex := none, originalAmount := none, splitMemo := none }

/-- The amount one allocation consumes, given the original magnitude
`M` and the running remainder: a fixed amount is clamped to the
remainder, a percentage is relative to `M`, an allocation with neither
absorbs the remainder. -/
def allocAmount (M rem : ℚ) (a : SplitAllocation) : ℚ :=
  match a.fixedAmount with
  | some f => min f rem
  | none =>
    match a.percentage with
    | some p => M * (p / 100)
    | none => rem

/-- The default memo `Split {i+1} of {n}`. -/
def defaultSplitMemo (idx n : ℕ) : String :=
  "Split " ++ toString (idx + 1) ++ " of " ++ toString n

/-- One emitted split fragment (amount rounded to cents). -/
def splitFragment (t : Transaction) (pid : String) (n idx : ℕ)
    (a : SplitAllocation) (splitAmount : ℚ) : SplitTransaction :=
  { toTransaction := { t with amount := round2 splitAmount, category := a.category },
    isSplit := true, splitParentId := some pid, splitIndex := some idx,
    originalAmount := some t.amount,
    splitMemo := some (match a.memo with
      | some m => if m = "" then defaultSplitMemo idx n else m
      | none => defaultSplitMemo idx n) }

/-- The `rule.action.splits.forEach` loop plus the trailing
remainder fragment (appended when more than 0.01 is left over). -/
def runSplits (t : Transaction) (pid : String) (n : ℕ) (rem : ℚ) (idx : ℕ) :
    List SplitAllocation → List SplitTransaction
  | [] =>
    if rem > 1/100 then
      [{ toTransaction := { t with amount := round2 rem, category := "Uncategorized" },
         isSplit := true, splitParentId := some pid, splitIndex := some n,
         originalAmount := some t.amount, splitMemo := some "Remaining amount" }]
    else []
  | a :: rest =>
    let sa := allocAmount t.amount rem a
    splitFragment t pid n idx a sa :: runSplits t pid n (rem - sa) (idx + 1) rest

/-- `applyRule`: apply a single rule's action to a transaction.  `now`
models `Date.now()`, used only to mint the shared `splitParentId`.  An
action that produces nothing (malformed) falls through to the
pass-through fragment. -/
def applyRule (now : ℕ) (t : Transaction) (rule : CustomRule) : List SplitTransaction :=
  let result : List SplitTransaction :=
    match rule.action.type with
    | .categorize =>
      match rule.action.category with
      | some c => if c = "" then [] else
          [{ plainFragment { t with category := c } with isSplit := false }]
      | none => []
    | .rename =>
      match rule.action.newName with
      | some nm => if nm = "" then [] else
          [{ plainFragment { t with description := nm } with isSplit := false }]
      | none => []
    | .split =>
      match rule.action.splits with
      | some splits =>
        if splits.length > 0 then
          runSplits t ("split_" ++ toString now) splits.length t.amount 0 splits
        else []
      | none => []
  if result.isEmpty then [plainFragment t] else result

/-- Spec-side mirror of the unrounded amounts the allocation walk
consumes (used to state sum properties of `runSplits`). -/
def rawAmounts (M rem : ℚ) : List SplitAllocation → List ℚ
  | [] => []
  | a :: rest =>
    let sa := allocAmount M rem a
    sa :: rawAmounts M (rem - sa) rest

/-! ## IIF exporter (`iif-exporter`) -/

/-- The options record after `{...DEFAULT_OPTIONS, ...options}`. -/
structure IIFOptions where
  bankAccountName : String
  defaultExpenseAccount : String
  defaultIncomeAccount : String
  includeMemo : Bool
  categoryMapping : List (String × String)
  deriving DecidableEq, Repr

/-- `Partial<IIFExportOptions>` as passed by callers. -/
structure IIFOptionsP where
  bankAccountName : Option String
  defaultExpenseAccount : Option String
  defaultIncomeAccount : Option String
  includeMemo : Option Bool
  categoryMapping : Option (List (String × String))
  deriving DecidableEq, Repr

/-- The empty `{}` options object. -/
def emptyIIFOptions : IIFOptionsP :=
  { bankAccountName := none, defaultExpenseAccount := none,
    defaultIncomeAccount := none, includeMemo := none, categoryMapping := none }

/-- `DEFAULT_OPTIONS` merged over the caller's partial options. -/
def mergeOptions (o : IIFOptionsP) : IIFOptions :=
  { bankAccountName := o.bankAccountName.getD "Checking"
    defaultExpenseAccount := o.defaultExpenseAccount.getD "Uncategorized Expense"
    defaultIncomeAccount := o.defaultIncomeAccount.getD "Other Income"
    includeMemo := o.includeMemo.getD true
    categoryMapping := o.categoryMapping.getD [] }

/-- `DEFAULT_CATEGORY_MAPPING`. -/
def DEFAULT_CATEGORY_MAPPING : List (String × String) := [
  ("Groceries", "Groceries"),
  ("Restaurants and Dining", "Meals & Entertainment"),
  ("Entertainment", "Entertainment"),
  ("Gas", "Auto:Fuel"),
  ("Travel", "Travel"),
  ("Utilities", "Utilities"),
  ("Cable", "Utilities:Cable"),
  ("Phone", "Utilities:Telephone"),
  ("Insurance", "Insurance"),
  ("Healthcare", "Medical"),
  ("Subscriptions and Renewals", "Subscriptions"),
  ("Services and Supplies", "Office Supplies"),
  ("Software & Services", "Computer & Internet"),
  ("General Merchandise", "Supplies"),
  ("Clothing", "Clothing"),
  ("Personal Care", "Personal Care"),
  ("Home Improvement", "Repairs & Maintenance"),
  ("Loans", "Loan Interest"),
  ("Transfers", "Transfer"),
  ("ATM", "Cash"),
  ("Fees", "Bank Service Charges"),
  ("Salary", "Payroll Income"),
  ("Other Income", "Other Income"),
  ("Interest", "Interest Income"),
  ("Refund", "Other Income"),
  ("Uncategorized", "Uncategorized Expense")]

/-- Truthy map access (`map?.[category]`): a present-but-empty value is
falsy and falls through to the next source. -/
def lookupTruthy (m : List (String × String)) (k : String) : Option String :=
  match List.lookup k m with
  | some v => if v = "" then none else some v
  | none => none

/-- `getQBAccount`: custom mapping, then the default table, then the
type-specific default account. -/
def getQBAccount (category : String) (type : TxnType) (options : IIFOptions) : String :=
  match lookupTruthy options.categoryMapping category with
  | some v => v
  | none =>
    match lookupTruthy DEFAULT_CATEGORY_MAPPING category with
    | some v => v
    | none =>
      match type with
      | .income => if options.defaultIncomeAccount = "" then "Other Income"
          else options.defaultIncomeAccount
      | .expense => if options.defaultExpenseAccount = "" then "Uncategorized Expense"
          else options.defaultExpenseAccount

/-- Tab replacement pass of `escapeIIF` (`replace(/\t/g, ' ')`). -/
def escTabs (l : List Char) : List Char :=
  l.map (fun c => if c = '\t' then ' ' else c)

/-- Line-break replacement pass of `escapeIIF` (`replace(/\r?\n/g, ' ')`). -/
def escNewlines : List Char → List Char
  | [] => []
  | '\r' :: '\n' :: rest => ' ' :: escNewlines rest
  | '\n' :: rest => ' ' :: escNewlines rest
  | c :: rest => c :: escNewlines rest

/-- `escapeIIF`: neutralize delimiter/line-break characters, truncate
to 100 characters. -/
def escapeIIF (s : String) : String :=
  String.mk ((escNewlines (escTabs s.data)).take 100)

/-- `formatIIFDate`: reformat to `MM/DD/YYYY`.  Modelled for ISO
`YYYY-MM-DD` inputs under a UTC runtime (the `Date` round trip of the
source is the identity on the three components there). -/
def formatIIFDate (dateStr : String) : String :=
  ((dateStr.drop 5).take 2) ++ "/" ++ ((dateStr.drop 8).take 2) ++ "/" ++ dateStr.take 4

/-- Truthiness of `txn.splitParentId`. -/
def pidTruthy (t : SplitTransaction) : Bool :=
  match t.splitParentId with
  | some p => p ≠ ""
  | none => false

/-- Append a fragment to its parent's group, preserving first-seen key
order (JS `Map` insertion order). -/
def addToGroup (pid : String) (t : SplitTransaction) :
    List (String × List SplitTransaction) → List (String × List SplitTransaction)
  | [] => [(pid, [t])]
  | (k, g) :: rest =>
    if k = pid then (k, g ++ [t]) :: rest else (k, g) :: addToGroup pid t rest

/-- The accumulator walk of `groupSplitTransactions`. -/
def gstGo (acc : List SplitTransaction × List (String × List SplitTransaction)) :
    List SplitTransaction → List SplitTransaction × List (String × List SplitTransaction)
  | [] => acc
  | txn :: rest =>
    if txn.isSplit ∧ pidTruthy txn then
      gstGo (acc.1, addToGroup ((txn.splitParentId).getD "") txn acc.2) rest
    else
      gstGo (acc.1 ++ [txn], acc.2) rest

/-- `groupSplitTransactions`: split fragments grouped by parent id,
everything else kept (in order) as regular transactions. -/
def groupSplitTransactions (transactions : List SplitTransaction) :
    List SplitTransaction × List (String × List SplitTransaction) :=
  gstGo ([], []) transactions

/-- A `TRNS` row. -/
def trnsLine (id : ℕ) (trnsType date accnt name amountStr memo : String) : String :=
  String.intercalate "\t"
    ["TRNS", toString id, trnsType, date, accnt, name, amountStr, "", memo, "N", "N"]

/-- An `SPL` row. -/
def splLine (id : ℕ) (trnsType date accnt name amountStr memo : String) : String :=
  String.intercalate "\t"
    ["SPL", toString id, trnsType, date, accnt, name, amountStr, "", memo, "N", "", ""]

/-- The three fixed header lines. -/
def iifHeaders : List String :=
  ["!TRNS\tTRNSID\tTRNSTYPE\tDATE\tACCNT\tNAME\tAMOUNT\tDOCNUM\tMEMO\tCLEAR\tTOPRINT",
   "!SPL\tSPLID\tTRNSTYPE\tDATE\tACCNT\tNAME\tAMOUNT\tDOCNUM\tMEMO\tCLEAR\tQNTY\tREIMBEXP",
   "!ENDTRNS"]

/-- The emitted lines for one regular (non-split) transaction with
transaction id `id`. -/
def regularBlock (opts : IIFOptions) (id : ℕ) (txn : SplitTransaction) : List String :=
  let date := formatIIFDate txn.date
  let amount := match txn.type with
    | .expense => -txn.amount
    | .income => txn.amount
  let name := escapeIIF (txn.description.take 50)
  let memo := if opts.includeMemo then escapeIIF txn.description else ""
  let offsetAccount := getQBAccount txn.category txn.type opts
  let trnsType := match txn.type with
    | .income => "DEPOSIT"
    | .expense => "CHECK"
  [trnsLine id trnsType date opts.bankAccountName name (toFixed2 amount) memo,
   splLine id trnsType date offsetAccount name (toFixed2 (-amount)) memo,
   "ENDTRNS"]

/-- The regular-transaction loop (`trnsId++` per transaction). -/
def regularBlocks (opts : IIFOptions) (id : ℕ) : List SplitTransaction → List String
  | [] => []
  | t :: rest => regularBlock opts (id + 1) t ++ regularBlocks opts (id + 1) rest

/-- The emitted lines for one split group (one `TRNS` row for the
original amount, one `SPL` row per fragment). -/
def splitGroupBlock (opts : IIFOptions) (id : ℕ) (first : SplitTransaction)
    (splits : List SplitTransaction) : List String :=
  let date := formatIIFDate first.date
  let originalAmount := match first.originalAmount with
    | some v => if v = 0 then (splits.map (·.amount)).sum else v
    | none => (splits.map (·.amount)).sum
  let amount := match first.type with
    | .expense => -originalAmount
    | .income => originalAmount
  let name := escapeIIF (first.description.take 50)
  let memo := if opts.includeMemo then escapeIIF first.description else ""
  let trnsType := match first.type with
    | .income => "DEPOSIT"
    | .expense => "CHECK"
  trnsLine id trnsType date opts.bankAccountName name (toFixed2 amount) memo ::
  (splits.map (fun s =>
    let splitAmount := match s.type with
      | .expense => s.amount
      | .income => -s.amount
    let offsetAccount := getQBAccount s.category s.type opts
    let sMemo := match s.splitMemo with
      | some m => if m = "" then memo else m
      | none => memo
    splLine id trnsType date offsetAccount name (toFixed2 splitAmount) (escapeIIF sMemo))) ++
  ["ENDTRNS"]

/-- The split-group loop: empty groups are skipped without consuming a
transaction id. -/
def groupBlocks (opts : IIFOptions) (id : ℕ) :
    List (String × List SplitTransaction) → List String
  | [] => []
  | (_, []) :: rest => groupBlocks opts id rest
  | (_, s :: ss) :: rest =>
    splitGroupBlock opts (id + 1) s (s :: ss) ++ groupBlocks opts (id + 1) rest

/-- `generateIIF`: header lines, then one block per regular transaction
in input order, then one block per split group, joined with CRLF. -/
def generateIIF (transactions : List SplitTransaction) (options : IIFOptionsP) : String :=
  let opts := mergeOptions options
  let g := groupSplitTransactions transactions
  String.intercalate "\r\n"
    (iifHeaders ++ regularBlocks opts 0 g.1 ++ groupBlocks opts g.1.length g.2)

/-! ## IIF validator (`csv-validators`, `validateIIF`) -/

structure IIFStats where
  transactionCount : ℕ
  splitCount : ℕ
  totalDebit : ℚ
  totalCredit : ℚ
  deriving DecidableEq, Repr

structure IIFValidationResult where
  valid : Bool
  errors : List String
  warnings : List String
  stats : IIFStats
  deriving DecidableEq, Repr

/-- `content.split(/\r?\n/)` on a character list (a `\r` is only
consumed when a `\n` follows). -/
def splitLinesRN : List Char → List (List Char)
  | [] => [[]]
  | '\r' :: '\n' :: rest => [] :: splitLinesRN rest
  | '\n' :: rest => [] :: splitLinesRN rest
  | c :: rest =>
    match splitLinesRN rest with
    | [] => [[c]]
    | l :: ls => (c :: l) :: ls

def iifLines (content : String) : List String :=
  (splitLinesRN content.data).map String.mk

/-- `parseFloat(parts[6] || '0') || 0`. -/
def iifAmountField (parts : List String) : ℚ :=
  let s := parts.getD 6 ""
  (jsParseFloat (if s = "" then "0" else s)).getD 0

/-- The mutable state of the `validateIIF` line loop. -/
structure IIFScanState where
  inTransaction : Bool
  currentTrnsAmount : ℚ
  currentSplitsTotal : ℚ
  currentTrnsId : String
  stats : IIFStats
  errors : List String
  warnings : List String
  deriving DecidableEq, Repr

/-- One iteration of the `validateIIF` loop over `(index, line)`. -/
def iifStep (st : IIFScanState) (idx : ℕ) (rawLine : String) : IIFScanState :=
  let line := strTrim rawLine
  if line = "" ∨ strStartsWith line "!" then st
  else
    let parts := strSplitOnChar '\t' line
    let type := parts.headD ""
    if type = "TRNS" then
      let errs := st.errors ++ (if st.inTransaction then
        ["Line " ++ toString (idx + 1) ++ ": TRNS without ENDTRNS for previous transaction"]
        else [])
      let amt := iifAmountField parts
      { st with
        inTransaction := true
        currentTrnsAmount := amt
        currentSplitsTotal := 0
        currentTrnsId := parts.getD 1 ""
        errors := errs
        stats := { st.stats with
          transactionCount := st.stats.transactionCount + 1
          totalCredit := if amt ≥ 0 then st.stats.totalCredit + amt else st.stats.totalCredit
          totalDebit := if amt ≥ 0 then st.stats.totalDebit else st.stats.totalDebit + |amt| } }
    else if type = "SPL" then
      let errs := st.errors ++ (if st.inTransaction then []
        else ["Line " ++ toString (idx + 1) ++ ": SPL without TRNS"])
      let amt := iifAmountField parts
      { st with
        errors := errs
        stats := { st.stats with splitCount := st.stats.splitCount + 1 }
        currentSplitsTotal := st.currentSplitsTotal + amt }
    else if type = "ENDTRNS" then
      let errs1 := st.errors ++ (if st.inTransaction then []
        else ["Line " ++ toString (idx + 1) ++ ": ENDTRNS without TRNS"])
      let errs2 := errs1 ++ (if 1/100 < |st.currentTrnsAmount + st.currentSplitsTotal| then
        ["Transaction " ++ st.currentTrnsId ++ ": TRNS (" ++ toFixed2 st.currentTrnsAmount ++
         ") + SPL (" ++ toFixed2 st.currentSplitsTotal ++ ") should equal 0"]
        else [])
      { st with inTransaction := false, errors := errs2 }
    else if type = "ACCNT" then st
    else if type ≠ "" then
      { st with warnings := st.warnings ++
          ["Line " ++ toString (idx + 1) ++ ": Unknown row type \"" ++ type ++ "\""] }
    else st

/-- `validateIIF`: scan the tab-delimited export with the open/close
state machine, checking that each block balances to zero. -/
def validateIIF (content : String) : IIFValidationResult :=
  let lines := iifLines content
  let hasHeader := lines.any (fun l => strStartsWith l "!TRNS")
  let init : IIFScanState :=
    { inTransaction := false, currentTrnsAmount := 0, currentSplitsTotal := 0,
      currentTrnsId := "",
      stats := { transactionCount := 0, splitCount := 0, totalDebit := 0, totalCredit := 0 },
      errors := if hasHeader then [] else ["Missing !TRNS header"],
      warnings := [] }
  let final := (lines.enum.foldl (fun st p => iifStep st p.1 p.2) init)
  let errors := final.errors ++
    (if final.inTransaction then ["File ends without ENDTRNS for last transaction"] else [])
  let warnings := final.warnings ++
    (if final.stats.transactionCount = 0 then ["No transactions found in IIF file"] else [])
  { valid := errors.isEmpty, errors := errors, warnings := warnings, stats := final.stats }

/-! ## Concrete instances used by counterexamples and witnesses -/

/-- A plain expense transaction of magnitude 100. -/
def tx100 : Transaction :=
  { date := "2024-01-01", description := "purchase", amount := 100,
    type := .expense, category := "", balance := 0, account := "Checking" }

/-- A percentage-only allocation. -/
def pctAlloc (p : ℚ) : SplitAllocation :=
  { category := "Cat", percentage := some p, fixedAmount := none, memo := none }

/-- A split rule whose two allocations take 60% each (percentages sum
to 120). -/
def overshootRule : CustomRule :=
  { id := "r1", name := "overshoot", enabled := true, priority := 1,
    conditions := [], conditionLogic := .and,
    action := { type := .split, category := none, newName := none,
                splits := some [pctAlloc 60, pctAlloc 60] } }

/-- A split rule taking a fixed 100, then 50% of the original, then the
remainder. -/
def mixedRule : CustomRule :=
  { id := "r2", name := "mixed", enabled := true, priority := 1,
    conditions := [], conditionLogic := .and,
    action := { type := .split, category := none, newName := none,
                splits := some [
                  { category := "A", percentage := none, fixedAmount := some 100, memo := none },
                  { category := "B", percentage := some 50, fixedAmount := none, memo := none },
                  { category := "C", percentage := none, fixedAmount := none, memo := none }] } }

/-- A well-behaved split rule: 50% / 50%. -/
def halvesRule : CustomRule :=
  { id := "r3", name := "halves", enabled := true, priority := 1,
    conditions := [], conditionLogic := .and,
    action := { type := .split, category := none, newName := none,
                splits := some [pctAlloc 50, pctAlloc 50] } }

/-- A categorize rule with a missing category (malformed action). -/
def badCategorizeRule : CustomRule :=
  { id := "r4", name := "bad", enabled := true, priority := 1,
    conditions := [], conditionLogic := .and,
    action := { type := .categorize, category := none, newName := none, splits := none } }

/-- The single expense transaction of the export round-trip test. -/
def exportTxn : SplitTransaction :=
  plainFragment
    { date := "2024-03-15", description := "Store", amount := 85/2,
      type := .expense, category := "Groceries", balance := 0, account := "Checking" }

/-- A split fragment (parent id `p`) dated before `exportPlainTxn`. -/
def exportFragTxn : SplitTransaction :=
  { toTransaction :=
      { date := "2024-01-02", description := "A", amount := 10,
        type := .expense, category := "Misc", balance := 0, account := "x" },
    isSplit := true, splitParentId := some "p", splitIndex := some 0,
    originalAmount := some 20, splitMemo := none }

/-- A plain transaction listed after `exportFragTxn` in the input. -/
def exportPlainTxn : SplitTransaction :=
  plainFragment
    { date := "2024-01-03", description := "B", amount := 5,
      type := .expense, category := "Misc", balance := 0, account := "x" }

/-- One block of a split group, reading the first fragment off the
group (the shape `generateIIF` emits for each non-empty group). -/
def fullSplitBlock (opts : IIFOptions) (id : ℕ)
    (g : String × List SplitTransaction) : List String :=
  match g.2 with
  | [] => []
  | s :: ss => splitGroupBlock opts id s (s :: ss)

/-- A two-row, internally consistent newest-first row set (newest
balance 100 after a 10 deposit over the older balance 90). -/
def consistentRows : List Row :=
  [[("date", "2024-01-02"), ("deposit", "10"), ("withdrawal", "0"), ("balance", "100")],
   [("date", "2024-01-01"), ("deposit", "0"), ("withdrawal", "0"), ("balance", "90")]]

def stdBalanceColumns : BalanceColumns :=
  { deposit := "deposit", withdrawal := "withdrawal", balance := "balance", date := "date" }

/-! # Theorems -/

/-! ## C3: IIF generate-then-validate round trip -/

set_option maxRecDepth 100000 in
/-- C3: generating the accounting export for the single non-split
expense transaction of amount 42.50 yields a `TRNS` line with amount
field `-42.50` and an `SPL` line with amount field `42.50`, and
validating the generated text reports zero errors with
`transactionCount = 1`. -/
theorem c3_iif_round_trip :
    (((iifLines (generateIIF [exportTxn] emptyIIFOptions)).any (fun l =>
        (strSplitOnChar '\t' l).headD "" = "TRNS" ∧ (strSplitOnChar '\t' l).getD 6 "" = "-42.50")) = true) ∧
    (((iifLines (generateIIF [exportTxn] emptyIIFOptions)).any (fun l =>
        (strSplitOnChar '\t' l).headD "" = "SPL" ∧ (strSplitOnChar '\t' l).getD 6 "" = "42.50")) = true) ∧
    (validateIIF (generateIIF [exportTxn] emptyIIFOptions)).errors = [] ∧
    (validateIIF (generateIIF [exportTxn] emptyIIFOptions)).stats.transactionCount = 1 := by
  refine ⟨by with_unfolding_all decide, by with_unfolding_all decide,
    by with_unfolding_all decide, by with_unfolding_all decide⟩

/-! ## C8: malformed rule actions pass the transaction through -/

/-- C8: a rule whose action is malformed — a split action with no or an
empty allocation list, a categorize action with a missing/empty
category, or a rename action with a missing/empty new name — returns
exactly the original transaction as one non-split fragment. -/
theorem c8_malformed_action_passthrough :
    ∀ (now : ℕ) (t : Transaction) (rule : CustomRule),
      ((rule.action.type = .split ∧
          (rule.action.splits = none ∨ rule.action.splits = some [])) ∨
       (rule.action.type = .categorize ∧
          (rule.action.category = none ∨ rule.action.category = some "")) ∨
       (rule.action.type = .rename ∧
          (rule.action.newName = none ∨ rule.action.newName = some ""))) →
      applyRule now t rule = [plainFragment t] := by
  intro now t rule h
  unfold applyRule
  rcases h with ⟨hty, hs | hs⟩ | ⟨hty, hs | hs⟩ | ⟨hty, hs | hs⟩ <;>
    simp [hty, hs]

/-- Witness for C8 at a concrete malformed categorize rule. -/
theorem c8_witness :
    applyRule 0 tx100 badCategorizeRule = [plainFragment tx100] :=
  c8_malformed_action_passthrough 0 tx100 badCategorizeRule
    (Or.inr (Or.inl ⟨rfl, Or.inl rfl⟩))

/-! ## C9: `parseNumeric` -/

theorem stripCurrency_paren (s : String) :
    stripCurrency ("(" ++ s ++ ")") = stripCurrency s := by
  unfold stripCurrency
  rw [String.data_append, String.data_append]
  simp [List.filter_append, isCurrencyChar]

/-- C9: `parseNumeric` maps null, undefined and the empty string to 0;
on any other string it strips `$,()` then parses, returning 0 on a
failed parse; wrapping a value in parentheses never negates it (the
stripped text, hence the result, is unchanged). -/
theorem c9_parseNumeric :
    parseNumeric .vnull = 0 ∧
    parseNumeric .vundef = 0 ∧
    parseNumeric (.vstr "") = 0 ∧
    (∀ s : String, s ≠ "" →
      parseNumeric (.vstr s) = (jsParseFloat (stripCurrency s)).getD 0) ∧
    (∀ s : String, jsParseFloat (stripCurrency s) = none →
      parseNumeric (.vstr s) = 0) ∧
    (∀ s : String, parseNumeric (.vstr ("(" ++ s ++ ")")) = parseNumeric (.vstr s)) := by
  refine ⟨rfl, rfl, rfl, ?_, ?_, ?_⟩
  · intro s hs
    simp [parseNumeric, hs]
  · intro s hnone
    by_cases hs : s = ""
    · simp [parseNumeric, hs]
    · simp [parseNumeric, hs, hnone]
  · intro s
    have hne : ("(" ++ s ++ ")") ≠ "" := by
      intro heq
      have := congrArg String.data heq
      simp [String.data_append] at this
    by_cases hs : s = ""
    · subst hs; decide
    · simp only [parseNumeric, if_neg hne, if_neg hs, stripCurrency_paren]

/-- Witness for C9's conditional conjuncts at concrete strings. -/
theorem c9_witness :
    parseNumeric (.vstr "$1,234.56") = (jsParseFloat "1234.56").getD 0 ∧
    parseNumeric (.vstr "abc") = 0 := by
  constructor
  · have h := c9_parseNumeric.2.2.2.1 "$1,234.56" (by decide)
    simpa using h
  · exact c9_parseNumeric.2.2.2.2.1 "abc" (by decide)

/-! ## C6: QBO balance reconstruction -/

/-- C6: walking the date-descending transaction list, the parser
records the running value (started at the ending ledger balance) as
each transaction's balance and then subtracts that transaction's signed
amount; the value left after the oldest transaction is the synthesized
start balance, so `startBalance = endBalance - (sum of signed
amounts)` — also at the `parseQBO` level, where the sort is a
permutation. -/
theorem c6_balance_reconstruction :
    (∀ (bal : ℚ) (l : List (Transaction × ℚ)),
      (reconstructBalances bal l).2 = bal - (l.map Prod.snd).sum) ∧
    (∀ (bal : ℚ) (l : List (Transaction × ℚ)) (i : ℕ), i < l.length →
      ((reconstructBalances bal l).1.getD i dummyTxn).balance
        = bal - ((l.take i).map Prod.snd).sum) ∧
    (∀ (acct : String) (e : ℚ) (blocks : List QBOFields),
      (parseQBO acct e blocks).startBalance
        = e - ((blocks.map (mkQBOTxn acct)).map Prod.snd).sum) := by
  have h1 : ∀ (l : List (Transaction × ℚ)) (bal : ℚ),
      (reconstructBalances bal l).2 = bal - (l.map Prod.snd).sum := by
    intro l
    induction l with
    | nil => intro bal; simp [reconstructBalances]
    | cons p rest ih =>
      intro bal
      obtain ⟨t, a⟩ := p
      simp [reconstructBalances, ih (bal - a)]
      ring
  refine ⟨fun bal l => h1 l bal, ?_, ?_⟩
  · intro bal l
    induction l generalizing bal with
    | nil => intro i hi; simp at hi
    | cons p rest ih =>
      intro i hi
      obtain ⟨t, a⟩ := p
      cases i with
      | zero => simp [reconstructBalances]
      | succ j =>
        have hj : j < rest.length := by simpa using hi
        have h := ih (bal - a) j hj
        simp only [reconstructBalances, List.getD_cons_succ, List.take_succ_cons,
          List.map_cons, List.sum_cons, h]
        ring
  · intro acct e blocks
    unfold parseQBO
    simp only
    rw [h1]
    have hperm :
        ((blocks.map (mkQBOTxn acct)).mergeSort
            (fun a b => decide (dateKey b.1.date ≤ dateKey a.1.date))).Perm
          (blocks.map (mkQBOTxn acct)) :=
      List.mergeSort_perm _ _
    rw [(hperm.map Prod.snd).sum_eq]

/-- Witness for C6's indexed-balance conjunct at a one-element list. -/
theorem c6_witness :
    ((reconstructBalances 10 [(dummyTxn, 4)]).1.getD 0 dummyTxn).balance = 10 := by
  have h := c6_balance_reconstruction.2.1 10 [(dummyTxn, 4)] 0 (by decide)
  simpa using h

/-! ## C5: required-columns check vs the parser synonym table -/

/-- C5 counterexample: the header spelling `Posting Date` is accepted
by the delimited-text parser's synonym table for `date`, yet the
required-columns validator reports `date` missing — the two tables are
not the same. -/
theorem c5_counterexample :
    findColumn ["Posting Date"] COLUMN_MAPPINGS_date = some "Posting Date" ∧
    validateRequiredColumns ["Posting Date"] "f.csv" ["date"] =
      [missingColumnsError "f.csv" ["date"]] := by
  refine ⟨by decide, by decide⟩

/-- C5 (amended): the required-columns check fails exactly when some
required canonical column has no case-insensitive match among the
headers under the validator's own variations table, and then it lists
every missing canonical column in one error; that table is a subset of
the parser's synonym table for each canonical column (so every
spelling the validator accepts, the parser accepts — the converse
fails, per the counterexample). -/
theorem c5_required_columns_amended :
    ∀ (headers : List String) (filename : String) (required : List String),
      (validateRequiredColumns headers filename required = [] ↔
        ∀ col ∈ required, ∃ v ∈ getColumnVariations col, v ∈ headers.map strToLower) ∧
      (required.filter (fun col =>
          !((getColumnVariations col).any (fun v =>
            (headers.map strToLower).contains v))) ≠ [] →
        validateRequiredColumns headers filename required =
          [missingColumnsError filename (required.filter (fun col =>
            !((getColumnVariations col).any (fun v =>
              (headers.map strToLower).contains v))))]) ∧
      (∀ col ∈ ["date", "description", "deposit", "withdrawal", "balance",
                 "category", "amount"],
        ∀ v ∈ getColumnVariations col, v ∈ columnMappings col) := by
  intro headers filename required
  refine ⟨?_, ?_, by decide⟩
  · unfold validateRequiredColumns
    simp only
    constructor
    · intro h
      by_cases hm : (required.filter (fun col =>
          !((getColumnVariations col).any (fun v =>
            (headers.map strToLower).contains v)))).isEmpty
      · intro col hcol
        have h2 := List.filter_eq_nil_iff.mp (List.isEmpty_iff.mp hm) col hcol
        simp only [Bool.not_eq_true] at h2
        rw [Bool.not_eq_false'] at h2
        obtain ⟨v, hv, hcont⟩ := List.any_eq_true.mp h2
        exact ⟨v, hv, List.mem_of_elem_eq_true hcont⟩
      · rw [if_neg hm] at h
        exact absurd h (by simp)
    · intro h
      have hm : (required.filter (fun col =>
          !((getColumnVariations col).any (fun v =>
            (headers.map strToLower).contains v)))).isEmpty := by
        rw [List.isEmpty_iff, List.filter_eq_nil_iff]
        intro col hcol
        obtain ⟨v, hv, hmem⟩ := h col hcol
        have hany : (getColumnVariations col).any (fun v =>
            (headers.map strToLower).contains v) = true :=
          List.any_eq_true.mpr ⟨v, hv, List.elem_eq_true_of_mem hmem⟩
        intro hcontra
        rw [hany] at hcontra
        simp at hcontra
      rw [if_pos hm]
  · intro hne
    unfold validateRequiredColumns
    simp only
    rw [if_neg (by simpa [List.isEmpty_iff] using hne)]

/-- Witness for C5 (amended): a header set the validator accepts. -/
theorem c5_witness :
    validateRequiredColumns ["Date", "Deposit"] "f.csv" ["date", "deposit"] = [] :=
  (c5_required_columns_amended ["Date", "Deposit"] "f.csv" ["date", "deposit"]).1.mpr
    (by decide)

/-! ## C4: balance-consistency validator -/

/-- Characterization of the error-capping loop: starting from count
`c`, the final count adds every violation in `idxs`, and an individual
error object is emitted exactly for the first `5 - c` violations, in
iteration order. -/
theorem vbcLoop_spec (filename : String) (deposits withdrawals balances : List ℚ)
    (dates : List String) (idxs : List ℕ) (c : ℕ) :
    vbcLoop filename deposits withdrawals balances dates c idxs =
      (c + (idxs.filter (vbcViolates deposits withdrawals balances)).length,
       ((idxs.filter (vbcViolates deposits withdrawals balances)).take (5 - c)).map
         (vbcError filename deposits withdrawals balances dates)) := by
  induction idxs generalizing c with
  | nil => simp [vbcLoop]
  | cons i rest ih =>
    by_cases h : vbcViolates deposits withdrawals balances i
    · simp only [vbcLoop, if_pos h, ih, List.filter_cons_of_pos h, List.length_cons]
      rw [Prod.mk.injEq]
      refine ⟨by omega, ?_⟩
      by_cases hc : c + 1 ≤ 5
      · rw [if_pos hc]
        have h5 : 5 - c = (5 - (c + 1)) + 1 := by omega
        rw [h5, List.take_succ_cons, List.map_cons]
        rfl
      · rw [if_neg hc]
        have h5 : 5 - c = 0 := by omega
        have h5' : 5 - (c + 1) = 0 := by omega
        rw [h5, h5']
        simp
    · simp only [vbcLoop, if_neg h, ih, List.filter_cons_of_neg h]

/-- C4: for rows ordered newest-first, the validator reports an error
exactly for the rows `i ≤ n-2` where `|balance[i] - (balance[i+1] -
withdrawal[i] + deposit[i])| > 0.01` (walking from the second-oldest
row upward, i.e. `i = n-2` down to `0`); each error carries row number
`i+2` and the expected/actual pair; at most five violations are
reported individually, followed by one summary entry counting the
excess; with fewer than two rows it reports nothing. -/
theorem c4_balance_consistency :
    ∀ (rows : List Row) (filename : String) (cols : BalanceColumns),
      (rows.length < 2 → validateBalanceConsistency rows filename cols = []) ∧
      (2 ≤ rows.length →
        validateBalanceConsistency rows filename cols =
          (let deposits := rows.map (fun r => parseNumeric (jsValOf (rowGet r cols.deposit)))
           let withdrawals := rows.map (fun r => parseNumeric (jsValOf (rowGet r cols.withdrawal)))
           let balances := rows.map (fun r => parseNumeric (jsValOf (rowGet r cols.balance)))
           let dates := rows.map (fun r =>
             match rowGet r cols.date with
             | some d => if d = "" then "unknown" else d
             | none => "unknown")
           let viol := ((List.range (rows.length - 1)).reverse).filter
             (vbcViolates deposits withdrawals balances)
           (viol.take 5).map (vbcError filename deposits withdrawals balances dates) ++
             (if 5 < viol.length then [vbcSummaryError filename (viol.length - 5)] else []))) := by
  intro rows filename cols
  constructor
  · intro h
    unfold validateBalanceConsistency
    rw [if_pos h]
  · intro h
    unfold validateBalanceConsistency
    rw [if_neg (by omega)]
    simp only [vbcLoop_spec, Nat.zero_add]

/-- Witness for C4 at a concrete two-row consistent row set (and the
degenerate one-row case). -/
theorem c4_witness :
    validateBalanceConsistency consistentRows "f.csv" stdBalanceColumns = [] ∧
    validateBalanceConsistency [[("balance", "7")]] "f.csv" stdBalanceColumns = [] := by
  constructor
  · rw [(c4_balance_consistency consistentRows "f.csv" stdBalanceColumns).2
      (by with_unfolding_all decide)]
    with_unfolding_all decide
  · exact (c4_balance_consistency [[("balance", "7")]] "f.csv" stdBalanceColumns).1
      (by with_unfolding_all decide)

/-! ## C7: categorizer control flow -/

theorem patLoop_eq_any (desc : String) (ps : List (String → Bool)) :
    patLoop desc ps = ps.any (fun p => p desc) := by
  induction ps with
  | nil => rfl
  | cons p rest ih =>
    by_cases h : p desc
    · simp [patLoop, h]
    · simp [patLoop, h, ih]

theorem ruleLoop_eq_findSome (desc : String) (rules : List CategoryRule) :
    ruleLoop desc rules = rules.findSome? (fun r =>
      if r.patterns.any (fun p => p desc) then some r.category else none) := by
  induction rules with
  | nil => rfl
  | cons r rest ih =>
    by_cases h : r.patterns.any (fun p => p desc)
    · simp [ruleLoop, patLoop_eq_any, h, List.findSome?]
    · simp [ruleLoop, patLoop_eq_any, h, List.findSome?, ih]

/-- C7: `categorizeTransaction` returns an existing category unchanged
whenever it is set (non-empty) and differs from the `Uncategorized`
sentinel — hence re-running it is the identity there; otherwise income
transactions are matched only against the first five rules in order
(falling back to `Other Income`), and expense transactions against the
full ordered rule list, first matching pattern winning (falling back
to `Other`). -/
theorem c7_categorizer :
    ∀ t : Transaction,
      (t.category ≠ "" → t.category ≠ "Uncategorized" →
        categorizeTransaction t = t.category) ∧
      ((t.category = "" ∨ t.category = "Uncategorized") →
        (t.type = .income →
          categorizeTransaction t =
            ((CATEGORY_RULES.take 5).findSome? (fun r =>
              if r.patterns.any (fun p => p (strToLower t.description)) then some r.category
              else none)).getD "Other Income") ∧
        (t.type = .expense →
          categorizeTransaction t =
            (CATEGORY_RULES.findSome? (fun r =>
              if r.patterns.any (fun p => p (strToLower t.description)) then some r.category
              else none)).getD "Other")) := by
  intro t
  constructor
  · intro h1 h2
    unfold categorizeTransaction
    rw [if_pos ⟨h1, h2⟩]
  · intro hcat
    have hneg : ¬ (t.category ≠ "" ∧ t.category ≠ "Uncategorized") := by
      rcases hcat with h | h <;> simp [h]
    constructor
    · intro hty
      unfold categorizeTransaction
      rw [if_neg hneg]
      simp only [hty, ruleLoop_eq_findSome]
    · intro hty
      unfold categorizeTransaction
      rw [if_neg hneg]
      simp only [hty, ruleLoop_eq_findSome]

/-- Witness for C7: an uncategorized expense whose description matches
the groceries rule, and an already-categorized transaction kept
unchanged. -/
theorem c7_witness :
    categorizeTransaction
      { date := "", description := "WHOLE FOODS MKT", amount := 30, type := .expense,
        category := "", balance := 0, account := "" } = "Groceries" ∧
    categorizeTransaction
      { date := "", description := "WHOLE FOODS MKT", amount := 30, type := .expense,
        category := "Travel", balance := 0, account := "" } = "Travel" := by
  constructor
  · rw [((c7_categorizer _).2 (Or.inl rfl)).2 rfl]
    with_unfolding_all decide
  · exact (c7_categorizer _).1 (by decide) (by decide)

/-! ## C10: exporter block order and TRNSID assignment -/

/-- The regular-transaction loop emits one block per transaction in
order, with ids `id+1, id+2, ...` (the loop counter in positional
form). -/
theorem regularBlocks_enumFrom (opts : IIFOptions) (l : List SplitTransaction) :
    ∀ id : ℕ, regularBlocks opts id l =
      ((l.enumFrom (id + 1)).map (fun p => regularBlock opts p.1 p.2)).flatten := by
  induction l with
  | nil => intro id; rfl
  | cons t rest ih =>
    intro id
    simp only [regularBlocks, List.enumFrom, List.map_cons, List.flatten_cons, ih (id + 1)]

theorem addToGroup_nonempty (pid : String) (t : SplitTransaction)
    (groups : List (String × List SplitTransaction))
    (h : ∀ p ∈ groups, p.2 ≠ []) :
    ∀ p ∈ addToGroup pid t groups, p.2 ≠ [] := by
  induction groups with
  | nil =>
    intro p hp
    simp [addToGroup] at hp
    subst hp
    simp
  | cons g rest ih =>
    intro p hp
    unfold addToGroup at hp
    by_cases he : g.1 = pid
    · obtain ⟨k, gl⟩ := g
      simp only at he
      rw [if_pos he] at hp
      rcases List.mem_cons.mp hp with h1 | h1
      · subst h1; simp
      · exact h _ (List.mem_cons_of_mem _ h1)
    · obtain ⟨k, gl⟩ := g
      simp only at he
      rw [if_neg he] at hp
      rcases List.mem_cons.mp hp with h1 | h1
      · subst h1
        exact h _ (List.mem_cons_self _ _)
      · exact ih (fun q hq => h q (List.mem_cons_of_mem _ hq)) p h1

/-- Every group the grouping pass builds is non-empty. -/
theorem gstGo_groups_nonempty (l : List SplitTransaction) :
    ∀ acc, (∀ p ∈ acc.2, p.2 ≠ []) → ∀ p ∈ (gstGo acc l).2, p.2 ≠ [] := by
  induction l with
  | nil => intro acc h; exact h
  | cons t rest ih =>
    intro acc h
    unfold gstGo
    by_cases hc : t.isSplit ∧ pidTruthy t
    · rw [if_pos hc]
      exact ih _ (addToGroup_nonempty _ _ _ h)
    · rw [if_neg hc]
      exact ih _ h

/-- The split-group loop emits one block per (non-empty) group in
order, with ids continuing `id+1, id+2, ...`. -/
theorem groupBlocks_enumFrom (opts : IIFOptions)
    (groups : List (String × List SplitTransaction))
    (h : ∀ p ∈ groups, p.2 ≠ []) :
    ∀ id : ℕ, groupBlocks opts id groups =
      ((groups.enumFrom (id + 1)).map (fun p => fullSplitBlock opts p.1 p.2)).flatten := by
  induction groups with
  | nil => intro id; rfl
  | cons g rest ih =>
    intro id
    obtain ⟨k, gl⟩ := g
    cases gl with
    | nil => exact absurd rfl (h (k, []) (List.mem_cons_self _ _))
    | cons s ss =>
      simp only [groupBlocks, List.enumFrom, List.map_cons, List.flatten_cons,
        ih (fun q hq => h q (List.mem_cons_of_mem _ hq)) (id + 1)]
      rfl

set_option maxRecDepth 100000 in
/-- C10: the exporter's output is the three header lines, then one
block per non-split transaction in input order, then one block per
split group (all split groups after all non-split transactions), with
`TRNSID`s assigned consecutively from 1 in emission order (positions
`1..k` for the `k` regular transactions, then `k+1, ...` for the
groups); consequently the block order can differ from the input order:
in the concrete input `[fragment A, plain B]` the block for `B` (id 1)
precedes the block for `A`'s group (id 2). -/
theorem c10_generateIIF_structure :
    (∀ (transactions : List SplitTransaction) (options : IIFOptionsP),
      generateIIF transactions options =
        String.intercalate "\r\n"
          (iifHeaders ++
           ((((groupSplitTransactions transactions).1).enumFrom 1).map
             (fun p => regularBlock (mergeOptions options) p.1 p.2)).flatten ++
           ((((groupSplitTransactions transactions).2).enumFrom
               ((groupSplitTransactions transactions).1.length + 1)).map
             (fun p => fullSplitBlock (mergeOptions options) p.1 p.2)).flatten)) ∧
    ((((iifLines (generateIIF [exportFragTxn, exportPlainTxn] emptyIIFOptions)).getD 3 "").data =
        ("TRNS\t1\tCHECK\t01/03/2024\tChecking\tB\t-5.00\t\tB\tN\tN").data) ∧
     (((iifLines (generateIIF [exportFragTxn, exportPlainTxn] emptyIIFOptions)).getD 6 "").data =
        ("TRNS\t2\tCHECK\t01/02/2024\tChecking\tA\t-20.00\t\tA\tN\tN").data)) := by
  constructor
  · intro transactions options
    unfold generateIIF
    simp only
    have hne : ∀ p ∈ (groupSplitTransactions transactions).2, p.2 ≠ [] :=
      gstGo_groups_nonempty transactions ([], []) (by simp)
    rw [regularBlocks_enumFrom, groupBlocks_enumFrom _ _ hne]
  · constructor
    · with_unfolding_all decide
    · with_unfolding_all decide

/-! ## Split-action arithmetic (shared by C1 and C2) -/

/-- The amounts `runSplits` emits are the cent-rounded allocation
amounts, followed by the cent-rounded remainder when more than 0.01 is
left over. -/
theorem runSplits_amounts (t : Transaction) (pid : String) (n : ℕ)
    (allocs : List SplitAllocation) :
    ∀ (rem : ℚ) (idx : ℕ),
      (runSplits t pid n rem idx allocs).map (·.amount) =
        (rawAmounts t.amount rem allocs).map round2 ++
        (if 1/100 < rem - (rawAmounts t.amount rem allocs).sum then
          [round2 (rem - (rawAmounts t.amount rem allocs).sum)] else []) := by
  induction allocs with
  | nil =>
    intro rem idx
    simp only [runSplits, rawAmounts, List.map_nil, List.sum_nil, sub_zero,
      List.nil_append]
    by_cases h : 1/100 < rem
    · rw [if_pos h, if_pos h]
      rfl
    · rw [if_neg h, if_neg h]
      rfl
  | cons a rest ih =>
    intro rem idx
    simp only [runSplits, rawAmounts, List.map_cons, List.sum_cons]
    rw [ih (rem - allocAmount t.amount rem a) (idx + 1)]
    have harith : rem - allocAmount t.amount rem a -
        (rawAmounts t.amount (rem - allocAmount t.amount rem a) rest).sum =
        rem - (allocAmount t.amount rem a +
          (rawAmounts t.amount (rem - allocAmount t.amount rem a) rest).sum) := by
      ring
    rw [harith]
    rfl

/-- Every fragment `runSplits` emits carries `originalAmount =
t.amount` and the shared parent id. -/
theorem runSplits_meta (t : Transaction) (pid : String) (n : ℕ)
    (allocs : List SplitAllocation) :
    ∀ (rem : ℚ) (idx : ℕ), ∀ fr ∈ runSplits t pid n rem idx allocs,
      fr.originalAmount = some t.amount ∧ fr.splitParentId = some pid := by
  induction allocs with
  | nil =>
    intro rem idx fr hfr
    simp only [runSplits] at hfr
    split at hfr
    · rw [List.mem_singleton] at hfr
      subst hfr
      exact ⟨rfl, rfl⟩
    · simp at hfr
  | cons a rest ih =>
    intro rem idx fr hfr
    rw [runSplits, List.mem_cons] at hfr
    rcases hfr with h | h
    · subst h
      exact ⟨rfl, rfl⟩
    · exact ih _ _ fr h

/-- With percentage-only allocations the consumed amounts do not
depend on the running remainder. -/
theorem rawAmounts_pct (M : ℚ) (allocs : List SplitAllocation)
    (h : ∀ a ∈ allocs, a.fixedAmount = none ∧ ∃ p, a.percentage = some p) :
    ∀ rem, rawAmounts M rem allocs =
      allocs.map (fun a => M * (a.percentage.getD 0 / 100)) := by
  induction allocs with
  | nil => intro rem; rfl
  | cons a rest ih =>
    intro rem
    obtain ⟨hf, p, hp⟩ := h a (List.mem_cons_self _ _)
    simp only [rawAmounts, List.map_cons]
    rw [show allocAmount M rem a = M * (a.percentage.getD 0 / 100) by
      simp [allocAmount, hf, hp]]
    rw [ih (fun x hx => h x (List.mem_cons_of_mem _ hx)) _]

/-- Cent rounding moves a value by at most half a cent. -/
theorem round2_sub_le (x : ℚ) : |round2 x - x| ≤ 1/200 := by
  unfold round2
  have h := abs_sub_round (x * 100)
  rw [abs_sub_comm] at h
  have heq : (round (x * 100) : ℚ)/100 - x = ((round (x * 100) : ℚ) - x * 100)/100 := by
    ring
  rw [heq, abs_div]
  have h100 : |(100:ℚ)| = 100 := by norm_num
  rw [h100]
  linarith

/-- Cent rounding preserves nonnegativity. -/
theorem round2_nonneg (x : ℚ) (hx : 0 ≤ x) : 0 ≤ round2 x := by
  unfold round2
  have h1 : (0 : ℤ) ≤ round (x * 100) := by
    rw [round_eq]
    refine Int.floor_nonneg.mpr ?_
    linarith
  have h1q : (0:ℚ) ≤ (round (x * 100) : ℚ) := by exact_mod_cast h1
  linarith

/-- Rounding each summand moves the sum by at most half a cent per
element. -/
theorem sum_map_round2 (l : List ℚ) :
    |(l.map round2).sum - l.sum| ≤ (l.length : ℚ) * (1/200) := by
  induction l with
  | nil => simp
  | cons x rest ih =>
    simp only [List.map_cons, List.sum_cons, List.length_cons]
    have h1 := round2_sub_le x
    have key : round2 x + (rest.map round2).sum - (x + rest.sum) =
        (round2 x - x) + ((rest.map round2).sum - rest.sum) := by ring
    rw [key]
    have h2 := abs_add (round2 x - x) ((rest.map round2).sum - rest.sum)
    push_cast
    have hgoal : |round2 x - x| + |(rest.map round2).sum - rest.sum| ≤
        ((rest.length : ℚ) + 1) * (1/200) := by
      push_cast at ih
      nlinarith [ih, h1]
    linarith

theorem sum_map_pct (M : ℚ) (l : List ℚ) :
    (l.map (fun p => M * (p / 100))).sum = M * l.sum / 100 := by
  induction l with
  | nil => simp
  | cons p rest ih =>
    simp only [List.map_cons, List.sum_cons, ih]
    ring

/-- With a split action over a non-empty allocation list, `applyRule`
is exactly the allocation walk. -/
theorem applyRule_split (now : ℕ) (t : Transaction) (rule : CustomRule)
    (allocs : List SplitAllocation) (hty : rule.action.type = .split)
    (hs : rule.action.splits = some allocs) (hne : allocs ≠ []) :
    applyRule now t rule =
      runSplits t ("split_" ++ toString now) allocs.length t.amount 0 allocs := by
  cases allocs with
  | nil => exact absurd rfl hne
  | cons a rest =>
    unfold applyRule
    rw [hty, hs]
    simp [runSplits]

/-! ## C1: split-amount reconciliation -/

set_option maxRecDepth 100000 in
/-- C1 counterexample: on a transaction of amount 100, a split rule
with the non-empty allocation list `[60%, 60%]` emits fragments `[60,
60]` — the rounded amounts sum to 120, which is not within 0.01 of the
original 100 (percentages are taken of the original amount, so the
claim fails as stated for every overshooting allocation list). -/
theorem c1_counterexample :
    0 ≤ tx100.amount ∧
    overshootRule.action.type = .split ∧
    overshootRule.action.splits = some [pctAlloc 60, pctAlloc 60] ∧
    ((applyRule 0 tx100 overshootRule).map (·.amount)) = [60, 60] ∧
    ¬ (|((applyRule 0 tx100 overshootRule).map (·.amount)).sum - tx100.amount| ≤ 1/100) := by
  refine ⟨by with_unfolding_all decide, rfl, rfl,
    by with_unfolding_all decide, by with_unfolding_all decide⟩

set_option maxHeartbeats 1000000 in
/-- C1 (amended): for a transaction of non-negative amount `M` and a
split rule with a non-empty allocation list, every emitted fragment
carries `originalAmount = M` and the shared `splitParentId`;
and provided every allocation specifies a percentage (no fixed
amounts) and the percentages sum to at most 100, the emitted
fragment amounts (each rounded to cents) sum to `M` within `0.01 +
0.005·k`, where `k` is the number of emitted fragments (the extra
`0.005` per fragment is exactly the cent-rounding slack; the
pre-rounding amounts sum to `M` within 0.01). -/
theorem c1_split_sum_amended :
    ∀ (now : ℕ) (t : Transaction) (rule : CustomRule) (allocs : List SplitAllocation),
      0 ≤ t.amount →
      rule.action.type = .split →
      rule.action.splits = some allocs →
      allocs ≠ [] →
      (∀ fr ∈ applyRule now t rule,
        fr.originalAmount = some t.amount ∧
        fr.splitParentId = some ("split_" ++ toString now)) ∧
      ((∀ a ∈ allocs, a.fixedAmount = none ∧ ∃ p, a.percentage = some p) →
        (allocs.map (fun a => a.percentage.getD 0)).sum ≤ 100 →
        |((applyRule now t rule).map (·.amount)).sum - t.amount| ≤
          1/100 + ((applyRule now t rule).length : ℚ) * (1/200)) := by
  intro now t rule allocs hM hty hs hne
  rw [applyRule_split now t rule allocs hty hs hne]
  refine ⟨runSplits_meta t _ allocs.length allocs t.amount 0, ?_⟩
  intro hpct hsum
  have hraw : rawAmounts t.amount t.amount allocs =
      (allocs.map (fun a => a.percentage.getD 0)).map (fun p => t.amount * (p / 100)) := by
    rw [rawAmounts_pct t.amount allocs hpct t.amount, List.map_map]
    rfl
  have hsumraw : (rawAmounts t.amount t.amount allocs).sum =
      t.amount * (allocs.map (fun a => a.percentage.getD 0)).sum / 100 := by
    rw [hraw, sum_map_pct]
  have hR0 : 0 ≤ t.amount - (rawAmounts t.amount t.amount allocs).sum := by
    rw [hsumraw]
    have h1 : t.amount * (allocs.map (fun a => a.percentage.getD 0)).sum ≤
        t.amount * 100 := mul_le_mul_of_nonneg_left hsum hM
    linarith
  have hamts := runSplits_amounts t ("split_" ++ toString now) allocs.length allocs t.amount 0
  have hlen := congrArg List.length hamts
  simp only [List.length_map, List.length_append] at hlen
  have hsplit := sum_map_round2 (rawAmounts t.amount t.amount allocs)
  by_cases hc : 1/100 < t.amount - (rawAmounts t.amount t.amount allocs).sum
  · rw [hamts, if_pos hc]
    rw [if_pos hc] at hlen
    simp only [List.length_cons, List.length_nil] at hlen
    have hsum2 : ((rawAmounts t.amount t.amount allocs).map round2 ++
        [round2 (t.amount - (rawAmounts t.amount t.amount allocs).sum)]).sum =
        ((rawAmounts t.amount t.amount allocs).map round2).sum +
          round2 (t.amount - (rawAmounts t.amount t.amount allocs).sum) := by
      rw [List.sum_append, List.sum_cons, List.sum_nil, add_zero]
    rw [hsum2]
    have h2 := round2_sub_le (t.amount - (rawAmounts t.amount t.amount allocs).sum)
    have key : ((rawAmounts t.amount t.amount allocs).map round2).sum +
        round2 (t.amount - (rawAmounts t.amount t.amount allocs).sum) - t.amount =
        (((rawAmounts t.amount t.amount allocs).map round2).sum -
          (rawAmounts t.amount t.amount allocs).sum) +
        (round2 (t.amount - (rawAmounts t.amount t.amount allocs).sum) -
          (t.amount - (rawAmounts t.amount t.amount allocs).sum)) := by
      ring
    rw [key]
    have h3 := abs_add
      (((rawAmounts t.amount t.amount allocs).map round2).sum -
        (rawAmounts t.amount t.amount allocs).sum)
      (round2 (t.amount - (rawAmounts t.amount t.amount allocs).sum) -
        (t.amount - (rawAmounts t.amount t.amount allocs).sum))
    rw [hlen]
    push_cast
    nlinarith [hsplit, h2, h3]
  · rw [hamts, if_neg hc]
    rw [if_neg hc] at hlen
    simp only [List.length_nil, add_zero] at hlen
    rw [List.append_nil]
    have hRle : t.amount - (rawAmounts t.amount t.amount allocs).sum ≤ 1/100 := by
      linarith [not_lt.mp hc]
    have key : ((rawAmounts t.amount t.amount allocs).map round2).sum - t.amount =
        (((rawAmounts t.amount t.amount allocs).map round2).sum -
          (rawAmounts t.amount t.amount allocs).sum) -
        (t.amount - (rawAmounts t.amount t.amount allocs).sum) := by
      ring
    rw [key]
    have h3 := abs_sub
      (((rawAmounts t.amount t.amount allocs).map round2).sum -
        (rawAmounts t.amount t.amount allocs).sum)
      (t.amount - (rawAmounts t.amount t.amount allocs).sum)
    rw [hlen]
    have habs : |t.amount - (rawAmounts t.amount t.amount allocs).sum| ≤ 1/100 :=
      abs_le.mpr ⟨by linarith, hRle⟩
    nlinarith [hsplit, h3, habs]

set_option maxRecDepth 100000 in
/-- Witness for C1 (amended) at a 50%/50% split of a 100 transaction. -/
theorem c1_witness :
    |((applyRule 0 tx100 halvesRule).map (·.amount)).sum - tx100.amount| ≤
      1/100 + ((applyRule 0 tx100 halvesRule).length : ℚ) * (1/200) :=
  (c1_split_sum_amended 0 tx100 halvesRule [pctAlloc 50, pctAlloc 50]
    (by with_unfolding_all decide) rfl rfl (by decide)).2
    (by
      intro a ha
      rw [List.mem_cons, List.mem_singleton] at ha
      rcases ha with h | h <;> subst h <;> exact ⟨rfl, 50, rfl⟩)
    (by with_unfolding_all decide)

/-! ## C2: `amount ≥ 0` across the pipeline stages -/

theorem parseAmount_nonneg (v : JSVal) : 0 ≤ parseAmount v := by
  cases v with
  | vnull => exact le_refl 0
  | vundef => exact le_refl 0
  | vstr s =>
    simp only [parseAmount]
    split
    · exact le_refl 0
    · split
      · exact le_refl 0
      · exact abs_nonneg _

theorem rowTypeAmount_nonneg (cols : ResolvedColumns) (r : Row) :
    0 ≤ (rowTypeAmount cols r).2 := by
  unfold rowTypeAmount
  cases cols.amountCol with
  | some ac =>
    by_cases h : strContainsChar ((rowGet r ac).getD "") '-' ∨
        strContainsChar ((rowGet r ac).getD "") '('
    · simp only [if_pos h]
      exact parseAmount_nonneg _
    · simp only [if_neg h]
      exact parseAmount_nonneg _
  | none =>
    have hw : 0 ≤ (match cols.withdrawalCol with
        | some c => parseAmount (jsValOf (rowGet r c))
        | none => (0:ℚ)) := by
      cases cols.withdrawalCol with
      | some c => exact parseAmount_nonneg _
      | none => exact le_refl 0
    have hd : 0 ≤ (match cols.depositCol with
        | some c => parseAmount (jsValOf (rowGet r c))
        | none => (0:ℚ)) := by
      cases cols.depositCol with
      | some c => exact parseAmount_nonneg _
      | none => exact le_refl 0
    simp only
    split
    · exact hw
    · split
      · exact hd
      · exact le_refl 0

/-- Every transaction the CSV row loop keeps has a strictly positive
amount (zero-amount rows are dropped). -/
theorem parseCSVRows_pos (cols : ResolvedColumns) (account : String) :
    ∀ rows : List Row, ∀ tr ∈ parseCSVRows cols account rows, 0 < tr.amount := by
  intro rows
  induction rows with
  | nil => intro tr htr; simp [parseCSVRows] at htr
  | cons r rest ih =>
    intro tr htr
    rw [parseCSVRows] at htr
    simp only at htr
    split at htr
    · exact ih tr htr
    · split at htr
      · exact ih tr htr
      · rw [List.mem_cons] at htr
        rcases htr with h | h
        · subst h
          simp only
          rename_i hne
          exact lt_of_le_of_ne (rowTypeAmount_nonneg cols r) (fun he => hne he.symm)
        · exact ih tr h

/-- The balance-reconstruction pass preserves the amounts. -/
theorem reconstructBalances_amounts (bal : ℚ) (l : List (Transaction × ℚ)) :
    ((reconstructBalances bal l).1.map (·.amount)) = l.map (fun p => p.1.amount) := by
  induction l generalizing bal with
  | nil => rfl
  | cons p rest ih =>
    obtain ⟨t, a⟩ := p
    simp only [reconstructBalances, List.map_cons, ih (bal - a)]

/-- Fragments of a percentage-only split with non-negative percentages
are non-negative. -/
theorem runSplits_pct_nonneg (t : Transaction) (pid : String) (n : ℕ)
    (allocs : List SplitAllocation) (hM : 0 ≤ t.amount)
    (hpct : ∀ a ∈ allocs, a.fixedAmount = none ∧ ∃ p, a.percentage = some p ∧ 0 ≤ p) :
    ∀ fr ∈ runSplits t pid n t.amount 0 allocs, 0 ≤ fr.amount := by
  intro fr hfr
  have hmem : fr.amount ∈ (runSplits t pid n t.amount 0 allocs).map (·.amount) :=
    List.mem_map_of_mem _ hfr
  rw [runSplits_amounts] at hmem
  rcases List.mem_append.mp hmem with h | h
  · rw [rawAmounts_pct t.amount allocs
      (fun a ha => ⟨(hpct a ha).1, (hpct a ha).2.choose, (hpct a ha).2.choose_spec.1⟩)] at h
    rw [List.map_map] at h
    obtain ⟨a, ha, hval⟩ := List.mem_map.mp h
    obtain ⟨hf, p, hp, hp0⟩ := hpct a ha
    rw [← hval]
    refine round2_nonneg _ ?_
    simp only [Function.comp_apply, hp, Option.getD_some]
    positivity
  · split at h
    · rw [List.mem_singleton] at h
      rename_i hrem
      rw [h]
      exact round2_nonneg _ (by linarith)
    · simp at h

/-- Fragments of a fixed-amount-only split with non-negative fixed
amounts are non-negative (the running remainder stays non-negative). -/
theorem runSplits_fixed_nonneg (t : Transaction) (pid : String) (n : ℕ) :
    ∀ (allocs : List SplitAllocation),
      (∀ a ∈ allocs, ∃ f, a.fixedAmount = some f ∧ 0 ≤ f) →
      ∀ (rem : ℚ), 0 ≤ rem → ∀ (idx : ℕ),
        ∀ fr ∈ runSplits t pid n rem idx allocs, 0 ≤ fr.amount := by
  intro allocs
  induction allocs with
  | nil =>
    intro _ rem hrem idx fr hfr
    simp only [runSplits] at hfr
    split at hfr
    · rw [List.mem_singleton] at hfr
      subst hfr
      exact round2_nonneg _ hrem
    · simp at hfr
  | cons a rest ih =>
    intro hf rem hrem idx fr hfr
    obtain ⟨f, hfa, hf0⟩ := hf a (List.mem_cons_self _ _)
    have hsa : allocAmount t.amount rem a = min f rem := by
      simp [allocAmount, hfa]
    have hsa0 : 0 ≤ allocAmount t.amount rem a := by
      rw [hsa]
      exact le_min hf0 hrem
    have hsale : allocAmount t.amount rem a ≤ rem := by
      rw [hsa]
      exact min_le_right f rem
    rw [runSplits, List.mem_cons] at hfr
    rcases hfr with h | h
    · subst h
      exact round2_nonneg _ hsa0
    · exact ih (fun x hx => hf x (List.mem_cons_of_mem _ hx))
        (rem - allocAmount t.amount rem a) (by linarith) (idx + 1) fr h

set_option maxRecDepth 100000 in
/-- C2 counterexample: the split engine can emit a negative fragment
amount.  On a transaction of amount 100, the (rule-validator-accepted)
allocation list `[fixed 100, 50%, remainder]` emits fragments `[100,
50, -50]`: the percentage is taken of the original amount after the
fixed allocation consumed everything, and the remainder-absorbing
allocation receives the negative running remainder. -/
theorem c2_counterexample :
    0 ≤ tx100.amount ∧
    ((applyRule 0 tx100 mixedRule).map (·.amount)) = [100, 50, -50] ∧
    ¬ (∀ fr ∈ applyRule 0 tx100 mixedRule, 0 ≤ fr.amount) := by
  refine ⟨by with_unfolding_all decide, by with_unfolding_all decide,
    by with_unfolding_all decide⟩

/-- C2 (amended): the delimited-text parser only emits transactions
with strictly positive amount, the markup parser only non-negative
amounts, the categorizer and the categorize/rename rule actions
preserve amounts, and split actions preserve `amount ≥ 0` whenever the
allocations are all-percentage with non-negative percentages or
all-fixed with non-negative fixed amounts — but not for arbitrary
split allocation lists (see the counterexample); direction is encoded
by the `type` field throughout. -/
theorem c2_amount_nonneg_amended :
    (∀ (headers : List String) (rows : List Row) (filename : String),
      ∀ tr ∈ (parseCSV headers rows filename).transactions, 0 < tr.amount) ∧
    (∀ (acct : String) (e : ℚ) (blocks : List QBOFields),
      ∀ tr ∈ (parseQBO acct e blocks).transactions, 0 ≤ tr.amount) ∧
    (∀ ts : List Transaction,
      (categorizeAllTransactions ts).map (·.amount) = ts.map (·.amount)) ∧
    (∀ (now : ℕ) (t : Transaction) (rule : CustomRule),
      0 ≤ t.amount →
      (rule.action.type = .categorize ∨ rule.action.type = .rename) →
      ∀ fr ∈ applyRule now t rule, 0 ≤ fr.amount) ∧
    (∀ (now : ℕ) (t : Transaction) (rule : CustomRule) (allocs : List SplitAllocation),
      0 ≤ t.amount →
      rule.action.type = .split →
      rule.action.splits = some allocs →
      ((∀ a ∈ allocs, a.fixedAmount = none ∧ ∃ p, a.percentage = some p ∧ 0 ≤ p) ∨
       (∀ a ∈ allocs, ∃ f, a.fixedAmount = some f ∧ 0 ≤ f)) →
      ∀ fr ∈ applyRule now t rule, 0 ≤ fr.amount) := by
  refine ⟨?_, ?_, ?_, ?_, ?_⟩
  · intro headers rows filename tr htr
    unfold parseCSV at htr
    simp only at htr
    have hperm := List.mergeSort_perm
      (parseCSVRows (resolveColumns headers) (inferAccountFromFilename filename) rows)
      (fun a b => decide (dateKey b.date ≤ dateKey a.date))
    exact parseCSVRows_pos _ _ rows tr (hperm.mem_iff.mp htr)
  · intro acct e blocks tr htr
    unfold parseQBO at htr
    simp only at htr
    have hmem : tr.amount ∈ (reconstructBalances e
        ((blocks.map (mkQBOTxn acct)).mergeSort
          (fun a b => decide (dateKey b.1.date ≤ dateKey a.1.date)))).1.map (·.amount) :=
      List.mem_map_of_mem _ htr
    rw [reconstructBalances_amounts] at hmem
    obtain ⟨p, hp, hval⟩ := List.mem_map.mp hmem
    have hp2 : p ∈ blocks.map (mkQBOTxn acct) :=
      (List.mergeSort_perm _ _).mem_iff.mp hp
    obtain ⟨f, _, hfp⟩ := List.mem_map.mp hp2
    rw [← hval, ← hfp]
    exact abs_nonneg _
  · intro ts
    unfold categorizeAllTransactions
    rw [List.map_map]
    rfl
  · intro now t rule hM hty fr hfr
    rcases hty with h | h
    · cases hc : rule.action.category with
      | none =>
        simp only [applyRule, h, hc] at hfr
        simp at hfr
        rw [hfr]
        exact hM
      | some c =>
        simp only [applyRule, h, hc] at hfr
        split at hfr
        · simp at hfr
          rw [hfr]
          exact hM
        · simp at hfr
          rw [hfr]
          exact hM
    · cases hc : rule.action.newName with
      | none =>
        simp only [applyRule, h, hc] at hfr
        simp at hfr
        rw [hfr]
        exact hM
      | some nm =>
        simp only [applyRule, h, hc] at hfr
        split at hfr
        · simp at hfr
          rw [hfr]
          exact hM
        · simp at hfr
          rw [hfr]
          exact hM
  · intro now t rule allocs hM hty hs hcond fr hfr
    cases allocs with
    | nil =>
      simp only [applyRule, hty, hs] at hfr
      simp at hfr
      rw [hfr]
      exact hM
    | cons a rest =>
      rw [applyRule_split now t rule (a :: rest) hty hs (by simp)] at hfr
      rcases hcond with hp | hf
      · exact runSplits_pct_nonneg t _ _ (a :: rest) hM hp fr hfr
      · exact runSplits_fixed_nonneg t _ _ (a :: rest) hf t.amount hM 0 fr hfr

set_option maxRecDepth 100000 in
/-- Witness for C2 (amended): categorize action and 50/50 split on a
concrete transaction. -/
theorem c2_witness :
    (∀ fr ∈ applyRule 0 tx100 halvesRule, 0 ≤ fr.amount) := by
  refine c2_amount_nonneg_amended.2.2.2.2 0 tx100 halvesRule [pctAlloc 50, pctAlloc 50]
    (by with_unfolding_all decide) rfl rfl (Or.inl ?_)
  intro a ha
  rw [List.mem_cons, List.mem_singleton] at ha
  rcases ha with h | h <;> subst h <;>
    exact ⟨rfl, 50, rfl, by norm_num⟩

end FinanceReview
